import Mathlib

/-!
Verification of the Pincho/WirePusher JavaScript client library core
(`src/client.ts` current revision and `src/crypto.ts`).

The development shallowly embeds the resilient-delivery engine
(error classifier, retry/backoff loop, rate-limit tracker) and the
mobile-app-compatible encryption subsystem (SHA1-based key derivation,
PKCS7 padding, AES-128-CBC, custom Base64 output encoding) as executable
Lean definitions, and proves the specified properties about them.

Bytes are modelled as `Nat` values with explicit `% 256` masking where
the JavaScript code operates on 8-bit quantities; 32-bit words use
explicit `% 2^32` masking.
-/

/-! ## JavaScript primitives used by the client -/

/-- Model of JavaScript `parseInt(s, 10)`: skip leading whitespace, read an
optional sign, then a maximal run of decimal digits; `none` models `NaN`
(no digits found); trailing garbage is ignored. -/
def parseIntJS (s : String) : Option Int :=
  let cs := s.data.dropWhile fun c => c == ' ' || c == '\t' || c == '\n' || c == '\r'
  let signNeg : Bool := cs.head? == some '-'
  let rest := match cs with
    | '-' :: r => r
    | '+' :: r => r
    | r => r
  let digits := rest.takeWhile Char.isDigit
  if digits.isEmpty then none
  else
    let mag : Nat := digits.foldl (fun acc c => acc * 10 + (c.toNat - 48)) 0
    some (if signNeg then -(mag : Int) else (mag : Int))

/-- Response headers, modelled as an association list of name/value pairs. -/
abbrev HeaderList := List (String × String)

/-- Model of `headers.get(name)`: the value of the first matching header,
or `none` when absent (JavaScript `null`). -/
def headersGet (hs : HeaderList) (name : String) : Option String :=
  (hs.find? fun p => p.1 == name).map Prod.snd

/-- JavaScript truthiness of a nullable string: `null` and `""` are falsy. -/
def truthyStr : Option String → Bool
  | none => false
  | some s => !s.isEmpty

/-! ## Error taxonomy (`src/errors.ts`) -/

/-- Error codes of the client library (`ErrorCode` enum). -/
inductive ErrorCode where
  | UNKNOWN
  | NETWORK_ERROR
  | TIMEOUT
  | AUTH_INVALID
  | AUTH_FORBIDDEN
  | VALIDATION_ERROR
  | NOT_FOUND
  | RATE_LIMIT
  | SERVER_ERROR
deriving DecidableEq

/-- Base error value of the library (`WirePusherError`); the subclassing in
the source only changes the `name` used for `instanceof`, all data lives in
these fields. -/
structure WirePusherError where
  message : String
  code : ErrorCode
  isRetryable : Bool
  retryAfterSeconds : Option Int
deriving DecidableEq

/-! ## Rate-limit tracker (`parseRateLimitHeaders`, `_lastRateLimit`) -/

/-- Parsed rate limit snapshot (`RateLimitInfo`); the `Date` stored for the
reset instant is modelled by its epoch-milliseconds value
(`new Date(resetNum * 1000)`). -/
structure RateLimitInfo where
  limit : Int
  remaining : Int
  resetMillis : Int
deriving DecidableEq

/-- Model of `parseRateLimitHeaders(headers)`: requires all three headers to
be present and truthy, parses each with `parseInt(_, 10)`, and yields the
snapshot only when none of the three parses is `NaN`. -/
def parseRateLimitHeaders (hs : HeaderList) : Option RateLimitInfo :=
  let limit := headersGet hs "RateLimit-Limit"
  let remaining := headersGet hs "RateLimit-Remaining"
  let reset := headersGet hs "RateLimit-Reset"
  if truthyStr limit && truthyStr remaining && truthyStr reset then
    match parseIntJS (limit.getD ""), parseIntJS (remaining.getD ""), parseIntJS (reset.getD "") with
    | some limitNum, some remainingNum, some resetNum =>
        some { limit := limitNum, remaining := remainingNum, resetMillis := resetNum * 1000 }
    | _, _, _ => none
  else none

/-- Completed HTTP response as seen by `sendRequest` (a `fetch` `Response`):
`ok` is the 2xx flag, plus the status code and headers. -/
structure HttpResponse where
  ok : Bool
  status : Nat
  headers : HeaderList
deriving DecidableEq

/-- Model of the snapshot update in `sendRequest`:
`const rateLimitInfo = this.parseRateLimitHeaders(response.headers);
if (rateLimitInfo) { this._lastRateLimit = rateLimitInfo; }`. -/
def updateRateLimit (st : Option RateLimitInfo) (resp : HttpResponse) :
    Option RateLimitInfo :=
  match parseRateLimitHeaders resp.headers with
  | some info => some info
  | none => st

/-- Model of `getRateLimitInfo()`: returns the stored snapshot unchanged. -/
def getRateLimitInfo (st : Option RateLimitInfo) : Option RateLimitInfo := st

/-! ## Error classifier (`handleErrorResponse`) -/

/-- Model of the `switch (response.status)` classifier of
`handleErrorResponse`. `errorMessage` is the result of the best-effort body
parsing phase that precedes the switch (that phase only builds a string and
cannot change the classification). For 429 the `Retry-After` header is
attached when present, truthy and parsed to a non-`NaN` integer. -/
def handleErrorResponse (status : Nat) (headers : HeaderList)
    (errorMessage : String) : WirePusherError :=
  match status with
  | 401 =>
      { message := "Invalid token. Please check your credentials.",
        code := .AUTH_INVALID, isRetryable := false, retryAfterSeconds := none }
  | 403 =>
      { message := "Forbidden: Your account may be disabled or you don't have permission.",
        code := .AUTH_FORBIDDEN, isRetryable := false, retryAfterSeconds := none }
  | 400 =>
      { message := "Invalid parameters: " ++ errorMessage,
        code := .VALIDATION_ERROR, isRetryable := false, retryAfterSeconds := none }
  | 404 =>
      { message := "Resource not found: " ++ errorMessage,
        code := .NOT_FOUND, isRetryable := false, retryAfterSeconds := none }
  | 429 =>
      let rateLimitError : WirePusherError :=
        { message := "Rate limit exceeded: " ++ errorMessage,
          code := .RATE_LIMIT, isRetryable := true, retryAfterSeconds := none }
      match headersGet headers "Retry-After" with
      | none => rateLimitError
      | some h =>
          if h.isEmpty then rateLimitError
          else
            match parseIntJS h with
            | some retryAfter => { rateLimitError with retryAfterSeconds := some retryAfter }
            | none => rateLimitError
  | 500 | 502 | 503 | 504 =>
      { message := "API error (" ++ toString status ++ "): " ++ errorMessage,
        code := .SERVER_ERROR, isRetryable := true, retryAfterSeconds := none }
  | _ =>
      { message := "API error (" ++ toString status ++ "): " ++ errorMessage,
        code := .UNKNOWN, isRetryable := false, retryAfterSeconds := none }

/-! ## Transport failures and one `sendRequest` call -/

/-- Values thrown inside the `try` block of `sendRequest`, as discriminated
by its `catch`: a library error (re-thrown as-is), a JavaScript `Error`
object carrying its `name` and `message`, or a non-`Error` thrown value
carrying its `String(error)` rendering. -/
inductive JSThrown where
  | wpError (e : WirePusherError)
  | jsError (name : String) (message : String)
  | nonError (repr : String)
deriving DecidableEq

/-- Model of the `catch` clause of `sendRequest` (transport-level
classification). -/
def sendRequestCatch (timeoutMs : Int) : JSThrown → WirePusherError
  | .wpError e => e
  | .jsError name msg =>
      if name == "AbortError" then
        { message := "Request timeout after " ++ toString timeoutMs ++ "ms",
          code := .TIMEOUT, isRetryable := true, retryAfterSeconds := none }
      else
        { message := "Network error: " ++ msg,
          code := .NETWORK_ERROR, isRetryable := true, retryAfterSeconds := none }
  | .nonError r =>
      { message := "Unexpected error: " ++ r,
        code := .UNKNOWN, isRetryable := false, retryAfterSeconds := none }

/-- Outcome of the `fetch` call inside one `sendRequest`: either a completed
response (with the abstract parsed JSON `json` that `response.json()` would
yield, and the `errorMessage` the body-parsing phase would build), or a
thrown value. -/
inductive FetchOutcome (T : Type) where
  | completed (resp : HttpResponse) (errorMessage : String) (json : T)
  | threw (t : JSThrown)
deriving DecidableEq

/-- Model of one `sendRequest` call: updates the rate-limit snapshot from a
completed response (before the `ok` check), then returns the parsed body on
2xx or the classified error otherwise; thrown values go through the `catch`
clause and leave the snapshot unchanged. -/
def sendRequestModel {T : Type} (timeoutMs : Int) (st : Option RateLimitInfo)
    (out : FetchOutcome T) : Option RateLimitInfo × Except WirePusherError T :=
  match out with
  | .completed resp errorMessage v =>
      let st' := updateRateLimit st resp
      if resp.ok then (st', .ok v)
      else (st', .error (handleErrorResponse resp.status resp.headers errorMessage))
  | .threw t => (st, .error (sendRequestCatch timeoutMs t))

/-- State transition of the client's `_lastRateLimit` field caused by one
`sendRequest` call (the first component of `sendRequestModel`). -/
def clientStep {T : Type} (st : Option RateLimitInfo) (out : FetchOutcome T) :
    Option RateLimitInfo :=
  match out with
  | .completed resp _ _ => updateRateLimit st resp
  | .threw _ => st

/-! ## Backoff calculator and retry engine (`calculateBackoff`, `executeWithRetry`) -/

/-- Model of `calculateBackoff(attempt, isRateLimit)`:
`min(base * 2^attempt, 30000)` with base 5000 for rate limits and 1000
otherwise. -/
def calculateBackoff (attempt : Nat) (isRateLimit : Bool) : Nat :=
  let baseDelay : Nat := if isRateLimit then 5000 else 1000
  min (baseDelay * 2 ^ attempt) 30000

/-- Delay chosen by `executeWithRetry` before the next attempt after the
failure `e` at zero-indexed attempt `attempt`: the `Retry-After` hint
(converted to milliseconds) when the error is a rate limit carrying one,
otherwise the exponential backoff. -/
def computeDelay (e : WirePusherError) (attempt : Nat) : Int :=
  let isRateLimit : Bool := e.code == ErrorCode.RATE_LIMIT
  match isRateLimit, e.retryAfterSeconds with
  | true, some s => s * 1000
  | _, _ => (calculateBackoff attempt isRateLimit : Int)

/-- Outcome of one invocation of `requestFn` inside `executeWithRetry`:
a resolved value, a thrown library error, or a thrown foreign value
(identified by a string) that the loop re-throws unchanged. -/
inductive AttemptOutcome (T : Type) where
  | success (v : T)
  | wpError (e : WirePusherError)
  | other (o : String)
deriving DecidableEq

/-- Terminal outcome of `executeWithRetry`. -/
inductive RetryResult (T : Type) where
  | ok (v : T)
  | err (e : WirePusherError)
  | reraised (o : String)
deriving DecidableEq

/-- Observable trace of one `executeWithRetry` run: its result, the number
of times `requestFn` was invoked, and the list of waits (in ms) inserted
between attempts, in order. -/
structure RunTrace (T : Type) where
  result : RetryResult T
  calls : Nat
  delays : List Int
deriving DecidableEq

/-- Recursive model of the `for (let attempt = 0; attempt <= maxRetries; ...)`
loop of `executeWithRetry`. `outcomes n` is what the `n`-th invocation of
`requestFn` does. The fuel counts the remaining loop iterations; the
fuel-exhausted case models the unreachable `throw lastError ?? ...` line
after the loop. -/
def retryGo {T : Type} (maxRetries : Nat) (outcomes : Nat → AttemptOutcome T) :
    Nat → Nat → RunTrace T
  | _, 0 =>
      { result := .err { message := "Unknown error", code := .UNKNOWN,
                         isRetryable := false, retryAfterSeconds := none },
        calls := 0, delays := [] }
  | attempt, fuel + 1 =>
      match outcomes attempt with
      | .success v => { result := .ok v, calls := 1, delays := [] }
      | .other o => { result := .reraised o, calls := 1, delays := [] }
      | .wpError e =>
          if !e.isRetryable || attempt == maxRetries then
            { result := .err e, calls := 1, delays := [] }
          else
            let delay := computeDelay e attempt
            let rest := retryGo maxRetries outcomes (attempt + 1) fuel
            { result := rest.result, calls := rest.calls + 1, delays := delay :: rest.delays }

/-- Model of `executeWithRetry`: run the loop from attempt 0 with exactly
`maxRetries + 1` available iterations. -/
def executeWithRetry {T : Type} (maxRetries : Nat)
    (outcomes : Nat → AttemptOutcome T) : RunTrace T :=
  retryGo maxRetries outcomes 0 (maxRetries + 1)

/-- Retryable-library-failure test on an attempt outcome, used to describe
prefixes of a retry run. -/
def isRetryableFailure {T : Type} : AttemptOutcome T → Bool
  | .wpError e => e.isRetryable
  | _ => false

/-- Delays that the loop inserts while traversing `i` consecutive failed
attempts starting at index `attempt`. -/
def expectedDelaysFrom {T : Type} (outcomes : Nat → AttemptOutcome T) :
    Nat → Nat → List Int
  | _, 0 => []
  | attempt, i + 1 =>
      (match outcomes attempt with
       | .wpError e => computeDelay e attempt
       | _ => 0) :: expectedDelaysFrom outcomes (attempt + 1) i


/-! ## Bytes and 32-bit words -/

/-- XOR of two bytes, masked to 8 bits. -/
def byteXor (a b : Nat) : Nat := (a ^^^ b) % 256

/-- Left rotation of a 32-bit word by `n` bits (for `x < 2^32`). -/
def rotl32 (n x : Nat) : Nat := (x * 2 ^ n) % 4294967296 + x / 2 ^ (32 - n)

/-- All entries of a byte list are in range. -/
def validBytes (l : List Nat) : Prop := ∀ b ∈ l, b < 256

/-! ## UTF-8 (model of `Buffer.from(s, 'utf8')`) -/

/-- Standard UTF-8 encoding of one Unicode scalar value. -/
def utf8EncodeChar (c : Char) : List Nat :=
  let v := c.toNat
  if v < 128 then [v]
  else if v < 2048 then [192 + v / 64, 128 + v % 64]
  else if v < 65536 then [224 + v / 4096, 128 + v / 64 % 64, 128 + v % 64]
  else [240 + v / 262144, 128 + v / 4096 % 64, 128 + v / 64 % 64, 128 + v % 64]

/-- UTF-8 bytes of a string. -/
def utf8Encode (s : String) : List Nat := s.data.flatMap utf8EncodeChar

/-! ## Hexadecimal rendering and decoding -/

/-- Lowercase hexadecimal digits. -/
def hexDigits : List Char := "0123456789abcdef".toList

/-- Character of one hex digit value. -/
def hexDigitChar (n : Nat) : Char := hexDigits.getD n '0'

/-- Lowercase hex rendering of a byte list (model of `digest('hex')`). -/
def hexEncodeBytes (l : List Nat) : List Char :=
  l.flatMap fun b => [hexDigitChar (b / 16), hexDigitChar (b % 16)]

/-- Model of `String.prototype.toLowerCase` on the characters of a string
(the ASCII lowering suffices for hex digests). -/
def jsToLowerCase (s : List Char) : List Char := s.map Char.toLower

/-- Value of one hex digit; 16 signals an invalid digit. -/
def hexCharVal (c : Char) : Nat := hexDigits.indexOf c

/-- Model of `Buffer.from(hex, 'hex')`: consume pairs of hex digits,
stopping at the first invalid or incomplete pair. -/
def hexDecode : List Char → List Nat
  | c1 :: c2 :: rest =>
      let v1 := hexCharVal c1
      let v2 := hexCharVal c2
      if v1 < 16 && v2 < 16 then (v1 * 16 + v2) :: hexDecode rest else []
  | _ => []

/-! ## Chunking -/

/-- Split a byte list into consecutive chunks of 16 (the AES block size). -/
def chunks16 (l : List Nat) : List (List Nat) :=
  if h : l = [] then []
  else l.take 16 :: chunks16 (l.drop 16)
termination_by l.length
decreasing_by
  simp only [List.length_drop]
  have : 0 < l.length := List.length_pos.mpr h
  omega

/-- Split a byte list into consecutive chunks of 64 (the SHA1 block size). -/
def chunks64 (l : List Nat) : List (List Nat) :=
  if h : l = [] then []
  else l.take 64 :: chunks64 (l.drop 64)
termination_by l.length
decreasing_by
  simp only [List.length_drop]
  have : 0 < l.length := List.length_pos.mpr h
  omega

/-! ## SHA1 (FIPS 180; the hash `createHash('sha1')` computes) -/

/-- Big-endian 32-bit words from bytes. -/
def bytesToWords : List Nat → List Nat
  | b0 :: b1 :: b2 :: b3 :: rest =>
      (b0 * 16777216 + b1 * 65536 + b2 * 256 + b3) :: bytesToWords rest
  | _ => []

/-- Big-endian bytes of a 32-bit word. -/
def wordBytes (w : Nat) : List Nat :=
  [w / 16777216 % 256, w / 65536 % 256, w / 256 % 256, w % 256]

/-- SHA1 message padding: append `0x80`, zero bytes up to 56 mod 64, then
the 64-bit big-endian bit length. -/
def sha1Pad (msg : List Nat) : List Nat :=
  let ml := msg.length * 8
  let zeros := (119 - msg.length % 64) % 64
  msg ++ [128] ++ List.replicate zeros 0 ++
    [ml / 72057594037927936 % 256, ml / 281474976710656 % 256,
     ml / 1099511627776 % 256, ml / 4294967296 % 256,
     ml / 16777216 % 256, ml / 65536 % 256, ml / 256 % 256, ml % 256]

/-- Extend the 16 schedule words by `n` more:
`w(i) = rotl1 (w(i-3) xor w(i-8) xor w(i-14) xor w(i-16))`. -/
def sha1Extend (ws : List Nat) : Nat → List Nat
  | 0 => ws
  | n + 1 =>
      let k := ws.length
      sha1Extend (ws ++ [rotl32 1 ((ws.getD (k - 3) 0 ^^^ ws.getD (k - 8) 0 ^^^
        ws.getD (k - 14) 0 ^^^ ws.getD (k - 16) 0) % 4294967296)]) n

/-- Running hash state of SHA1. -/
structure Sha1State where
  h0 : Nat
  h1 : Nat
  h2 : Nat
  h3 : Nat
  h4 : Nat

/-- One of the 80 SHA1 rounds applied to `(a, b, c, d, e)`; the second
argument carries the round index and schedule word. -/
def sha1Round (st : Nat × Nat × Nat × Nat × Nat) (iw : Nat × Nat) :
    Nat × Nat × Nat × Nat × Nat :=
  let (a, b, c, d, e) := st
  let (i, w) := iw
  let f : Nat :=
    if i < 20 then (b &&& c) ||| ((b ^^^ 4294967295) &&& d)
    else if i < 40 then b ^^^ c ^^^ d
    else if i < 60 then (b &&& c) ||| (b &&& d) ||| (c &&& d)
    else b ^^^ c ^^^ d
  let k : Nat :=
    if i < 20 then 1518500249
    else if i < 40 then 1859775393
    else if i < 60 then 2400959708
    else 3395469782
  let temp := (rotl32 5 a + f + e + k + w) % 4294967296
  (temp, a, rotl32 30 b, c, d)

/-- Process one 64-byte SHA1 chunk. -/
def sha1ProcessChunk (st : Sha1State) (chunk : List Nat) : Sha1State :=
  let ws := sha1Extend (bytesToWords chunk) 64
  let fin := List.foldl sha1Round (st.h0, st.h1, st.h2, st.h3, st.h4) ws.enum
  { h0 := (st.h0 + fin.1) % 4294967296,
    h1 := (st.h1 + fin.2.1) % 4294967296,
    h2 := (st.h2 + fin.2.2.1) % 4294967296,
    h3 := (st.h3 + fin.2.2.2.1) % 4294967296,
    h4 := (st.h4 + fin.2.2.2.2) % 4294967296 }

/-- SHA1 digest (20 bytes) of a byte message. -/
def sha1 (msg : List Nat) : List Nat :=
  let fin := List.foldl sha1ProcessChunk
    { h0 := 1732584193, h1 := 4023233417, h2 := 2562383102,
      h3 := 271733878, h4 := 3285377520 }
    (chunks64 (sha1Pad msg))
  wordBytes fin.h0 ++ wordBytes fin.h1 ++ wordBytes fin.h2 ++
    wordBytes fin.h3 ++ wordBytes fin.h4

/-! ## Key derivation and padding (`src/crypto.ts`) -/

/-- Model of `deriveEncryptionKey`: SHA1 the UTF-8 password, render as
lowercase hex, lowercase it again, truncate to 32 hex characters, decode to
16 raw bytes. -/
def deriveEncryptionKey (password : String) : List Nat :=
  let sha1Hash := hexEncodeBytes (sha1 (utf8Encode password))
  let keyHex := (jsToLowerCase sha1Hash).take 32
  hexDecode keyHex

/-- Model of `applyPKCS7Padding`: extend `data` with `paddingLength` copies
of the byte `paddingLength`, where
`paddingLength = blockSize - (data.length % blockSize)`. -/
def applyPKCS7Padding (data : List Nat) (blockSize : Nat) : List Nat :=
  let paddingLength := blockSize - data.length % blockSize
  data ++ List.replicate paddingLength paddingLength

/-! ## Base64 and the custom output encoding -/

/-- Standard Base64 alphabet. -/
def b64Alphabet : List Char :=
  "ABCDEFGHIJKLMNOPQRSTUVWXYZabcdefghijklmnopqrstuvwxyz0123456789+/".toList

/-- Character of one 6-bit Base64 value. -/
def b64Idx (n : Nat) : Char := b64Alphabet.getD n 'A'

/-- Standard Base64 of a byte list (model of `Buffer.toString('base64')`). -/
def b64Encode : List Nat → List Char
  | [] => []
  | [b1] => [b64Idx (b1 / 4), b64Idx (b1 % 4 * 16), '=', '=']
  | [b1, b2] =>
      [b64Idx (b1 / 4), b64Idx (b1 % 4 * 16 + b2 / 16), b64Idx (b2 % 16 * 4), '=']
  | b1 :: b2 :: b3 :: rest =>
      b64Idx (b1 / 4) :: b64Idx (b1 % 4 * 16 + b2 / 16) ::
        b64Idx (b2 % 16 * 4 + b3 / 64) :: b64Idx (b3 % 64) :: b64Encode rest

/-- Character substitution applied by `customBase64Encode`. -/
def substChar (c : Char) : Char :=
  if c = '+' then '-' else if c = '/' then '.' else if c = '=' then '_' else c

/-- Model of `customBase64Encode` from `src/crypto.ts`: standard Base64 with
each `+` replaced by `-`, each `/` by `.`, and each `=` by `_`. -/
def customBase64Encode (data : List Nat) : String :=
  String.mk ((b64Encode data).map substChar)

/-- Inverse of `substChar` on the Base64 output alphabet (proof tool). -/
def unsubstChar (c : Char) : Char :=
  if c = '-' then '+' else if c = '.' then '/' else if c = '_' then '=' else c

/-- Index of a character in the Base64 alphabet (64 when absent). -/
def b64CharVal (c : Char) : Nat := b64Alphabet.indexOf c

/-- Base64 decoder matching `b64Encode` (proof tool for injectivity). -/
def b64Decode : List Char → List Nat
  | c1 :: c2 :: c3 :: c4 :: rest =>
      let v1 := b64CharVal c1
      let v2 := b64CharVal c2
      if c3 = '=' then [v1 * 4 + v2 / 16]
      else
        let v3 := b64CharVal c3
        if c4 = '=' then [v1 * 4 + v2 / 16, v2 % 16 * 16 + v3 / 4]
        else
          (v1 * 4 + v2 / 16) :: (v2 % 16 * 16 + v3 / 4) ::
            (v3 % 4 * 64 + b64CharVal c4) :: b64Decode rest
  | _ => []

/-- Decoder of the custom encoding (proof tool). -/
def customB64Decode (s : String) : List Nat := b64Decode (s.data.map unsubstChar)

/-! ## AES-128 (FIPS 197; the cipher `createCipheriv('aes-128-cbc', ...)`
applies per block, with `setAutoPadding(false)`) -/

/-- AES S-box table (FIPS 197). -/
def sboxList : List Nat := [
  0x63, 0x7c, 0x77, 0x7b, 0xf2, 0x6b, 0x6f, 0xc5,
  0x30, 0x01, 0x67, 0x2b, 0xfe, 0xd7, 0xab, 0x76,
  0xca, 0x82, 0xc9, 0x7d, 0xfa, 0x59, 0x47, 0xf0,
  0xad, 0xd4, 0xa2, 0xaf, 0x9c, 0xa4, 0x72, 0xc0,
  0xb7, 0xfd, 0x93, 0x26, 0x36, 0x3f, 0xf7, 0xcc,
  0x34, 0xa5, 0xe5, 0xf1, 0x71, 0xd8, 0x31, 0x15,
  0x04, 0xc7, 0x23, 0xc3, 0x18, 0x96, 0x05, 0x9a,
  0x07, 0x12, 0x80, 0xe2, 0xeb, 0x27, 0xb2, 0x75,
  0x09, 0x83, 0x2c, 0x1a, 0x1b, 0x6e, 0x5a, 0xa0,
  0x52, 0x3b, 0xd6, 0xb3, 0x29, 0xe3, 0x2f, 0x84,
  0x53, 0xd1, 0x00, 0xed, 0x20, 0xfc, 0xb1, 0x5b,
  0x6a, 0xcb, 0xbe, 0x39, 0x4a, 0x4c, 0x58, 0xcf,
  0xd0, 0xef, 0xaa, 0xfb, 0x43, 0x4d, 0x33, 0x85,
  0x45, 0xf9, 0x02, 0x7f, 0x50, 0x3c, 0x9f, 0xa8,
  0x51, 0xa3, 0x40, 0x8f, 0x92, 0x9d, 0x38, 0xf5,
  0xbc, 0xb6, 0xda, 0x21, 0x10, 0xff, 0xf3, 0xd2,
  0xcd, 0x0c, 0x13, 0xec, 0x5f, 0x97, 0x44, 0x17,
  0xc4, 0xa7, 0x7e, 0x3d, 0x64, 0x5d, 0x19, 0x73,
  0x60, 0x81, 0x4f, 0xdc, 0x22, 0x2a, 0x90, 0x88,
  0x46, 0xee, 0xb8, 0x14, 0xde, 0x5e, 0x0b, 0xdb,
  0xe0, 0x32, 0x3a, 0x0a, 0x49, 0x06, 0x24, 0x5c,
  0xc2, 0xd3, 0xac, 0x62, 0x91, 0x95, 0xe4, 0x79,
  0xe7, 0xc8, 0x37, 0x6d, 0x8d, 0xd5, 0x4e, 0xa9,
  0x6c, 0x56, 0xf4, 0xea, 0x65, 0x7a, 0xae, 0x08,
  0xba, 0x78, 0x25, 0x2e, 0x1c, 0xa6, 0xb4, 0xc6,
  0xe8, 0xdd, 0x74, 0x1f, 0x4b, 0xbd, 0x8b, 0x8a,
  0x70, 0x3e, 0xb5, 0x66, 0x48, 0x03, 0xf6, 0x0e,
  0x61, 0x35, 0x57, 0xb9, 0x86, 0xc1, 0x1d, 0x9e,
  0xe1, 0xf8, 0x98, 0x11, 0x69, 0xd9, 0x8e, 0x94,
  0x9b, 0x1e, 0x87, 0xe9, 0xce, 0x55, 0x28, 0xdf,
  0x8c, 0xa1, 0x89, 0x0d, 0xbf, 0xe6, 0x42, 0x68,
  0x41, 0x99, 0x2d, 0x0f, 0xb0, 0x54, 0xbb, 0x16]

/-- Inverse AES S-box table (proof tool). -/
def invSboxList : List Nat := [
  0x52, 0x09, 0x6a, 0xd5, 0x30, 0x36, 0xa5, 0x38,
  0xbf, 0x40, 0xa3, 0x9e, 0x81, 0xf3, 0xd7, 0xfb,
  0x7c, 0xe3, 0x39, 0x82, 0x9b, 0x2f, 0xff, 0x87,
  0x34, 0x8e, 0x43, 0x44, 0xc4, 0xde, 0xe9, 0xcb,
  0x54, 0x7b, 0x94, 0x32, 0xa6, 0xc2, 0x23, 0x3d,
  0xee, 0x4c, 0x95, 0x0b, 0x42, 0xfa, 0xc3, 0x4e,
  0x08, 0x2e, 0xa1, 0x66, 0x28, 0xd9, 0x24, 0xb2,
  0x76, 0x5b, 0xa2, 0x49, 0x6d, 0x8b, 0xd1, 0x25,
  0x72, 0xf8, 0xf6, 0x64, 0x86, 0x68, 0x98, 0x16,
  0xd4, 0xa4, 0x5c, 0xcc, 0x5d, 0x65, 0xb6, 0x92,
  0x6c, 0x70, 0x48, 0x50, 0xfd, 0xed, 0xb9, 0xda,
  0x5e, 0x15, 0x46, 0x57, 0xa7, 0x8d, 0x9d, 0x84,
  0x90, 0xd8, 0xab, 0x00, 0x8c, 0xbc, 0xd3, 0x0a,
  0xf7, 0xe4, 0x58, 0x05, 0xb8, 0xb3, 0x45, 0x06,
  0xd0, 0x2c, 0x1e, 0x8f, 0xca, 0x3f, 0x0f, 0x02,
  0xc1, 0xaf, 0xbd, 0x03, 0x01, 0x13, 0x8a, 0x6b,
  0x3a, 0x91, 0x11, 0x41, 0x4f, 0x67, 0xdc, 0xea,
  0x97, 0xf2, 0xcf, 0xce, 0xf0, 0xb4, 0xe6, 0x73,
  0x96, 0xac, 0x74, 0x22, 0xe7, 0xad, 0x35, 0x85,
  0xe2, 0xf9, 0x37, 0xe8, 0x1c, 0x75, 0xdf, 0x6e,
  0x47, 0xf1, 0x1a, 0x71, 0x1d, 0x29, 0xc5, 0x89,
  0x6f, 0xb7, 0x62, 0x0e, 0xaa, 0x18, 0xbe, 0x1b,
  0xfc, 0x56, 0x3e, 0x4b, 0xc6, 0xd2, 0x79, 0x20,
  0x9a, 0xdb, 0xc0, 0xfe, 0x78, 0xcd, 0x5a, 0xf4,
  0x1f, 0xdd, 0xa8, 0x33, 0x88, 0x07, 0xc7, 0x31,
  0xb1, 0x12, 0x10, 0x59, 0x27, 0x80, 0xec, 0x5f,
  0x60, 0x51, 0x7f, 0xa9, 0x19, 0xb5, 0x4a, 0x0d,
  0x2d, 0xe5, 0x7a, 0x9f, 0x93, 0xc9, 0x9c, 0xef,
  0xa0, 0xe0, 0x3b, 0x4d, 0xae, 0x2a, 0xf5, 0xb0,
  0xc8, 0xeb, 0xbb, 0x3c, 0x83, 0x53, 0x99, 0x61,
  0x17, 0x2b, 0x04, 0x7e, 0xba, 0x77, 0xd6, 0x26,
  0xe1, 0x69, 0x14, 0x63, 0x55, 0x21, 0x0c, 0x7d]


/-- AES S-box lookup. -/
def sbox (b : Nat) : Nat := sboxList.getD (b % 256) 0

/-- Inverse AES S-box lookup (proof tool). -/
def invSbox (b : Nat) : Nat := invSboxList.getD (b % 256) 0

/-- Multiplication by `x` in GF(2^8) modulo `x^8 + x^4 + x^3 + x + 1`. -/
def xtime (b : Nat) : Nat :=
  let b' := b % 256
  (b' * 2 ^^^ (if 128 ≤ b' then 27 else 0)) % 256

/-- GF(2^8) multiplications by the fixed MixColumns coefficients. -/
def gmul2 (b : Nat) : Nat := xtime b

def gmul3 (b : Nat) : Nat := byteXor (xtime b) b

def gmul9 (b : Nat) : Nat := byteXor (xtime (xtime (xtime b))) b

def gmul11 (b : Nat) : Nat := byteXor (byteXor (xtime (xtime (xtime b))) (xtime b)) b

def gmul13 (b : Nat) : Nat := byteXor (byteXor (xtime (xtime (xtime b))) (xtime (xtime b))) b

def gmul14 (b : Nat) : Nat :=
  byteXor (byteXor (xtime (xtime (xtime b))) (xtime (xtime b))) (xtime b)

/-- First row of the MixColumns matrix applied to a column; the other rows
are its cyclic rotations. -/
def mixRow (x y z w : Nat) : Nat := byteXor (byteXor (byteXor (gmul2 x) (gmul3 y)) z) w

/-- First row of the InvMixColumns matrix applied to a column. -/
def invMixRow (x y z w : Nat) : Nat :=
  byteXor (byteXor (byteXor (gmul14 x) (gmul11 y)) (gmul13 z)) (gmul9 w)

/-- AES state: 16 bytes in column-major order (entry `r + 4c` is row `r`
of column `c`, matching the order bytes enter the cipher). -/
structure Block where
  b0 : Nat
  b1 : Nat
  b2 : Nat
  b3 : Nat
  b4 : Nat
  b5 : Nat
  b6 : Nat
  b7 : Nat
  b8 : Nat
  b9 : Nat
  b10 : Nat
  b11 : Nat
  b12 : Nat
  b13 : Nat
  b14 : Nat
  b15 : Nat
deriving DecidableEq

/-- SubBytes step. -/
def subBytesB (s : Block) : Block :=
  ⟨sbox s.b0, sbox s.b1, sbox s.b2, sbox s.b3, sbox s.b4, sbox s.b5,
   sbox s.b6, sbox s.b7, sbox s.b8, sbox s.b9, sbox s.b10, sbox s.b11,
   sbox s.b12, sbox s.b13, sbox s.b14, sbox s.b15⟩

/-- InvSubBytes step (proof tool). -/
def invSubBytesB (s : Block) : Block :=
  ⟨invSbox s.b0, invSbox s.b1, invSbox s.b2, invSbox s.b3, invSbox s.b4,
   invSbox s.b5, invSbox s.b6, invSbox s.b7, invSbox s.b8, invSbox s.b9,
   invSbox s.b10, invSbox s.b11, invSbox s.b12, invSbox s.b13,
   invSbox s.b14, invSbox s.b15⟩

/-- ShiftRows step: row `r` rotated left by `r`. -/
def shiftRowsB (s : Block) : Block :=
  ⟨s.b0, s.b5, s.b10, s.b15, s.b4, s.b9, s.b14, s.b3,
   s.b8, s.b13, s.b2, s.b7, s.b12, s.b1, s.b6, s.b11⟩

/-- InvShiftRows step: row `r` rotated right by `r` (proof tool). -/
def invShiftRowsB (s : Block) : Block :=
  ⟨s.b0, s.b13, s.b10, s.b7, s.b4, s.b1, s.b14, s.b11,
   s.b8, s.b5, s.b2, s.b15, s.b12, s.b9, s.b6, s.b3⟩

/-- MixColumns step. -/
def mixColumnsB (s : Block) : Block :=
  ⟨mixRow s.b0 s.b1 s.b2 s.b3, mixRow s.b1 s.b2 s.b3 s.b0,
   mixRow s.b2 s.b3 s.b0 s.b1, mixRow s.b3 s.b0 s.b1 s.b2,
   mixRow s.b4 s.b5 s.b6 s.b7, mixRow s.b5 s.b6 s.b7 s.b4,
   mixRow s.b6 s.b7 s.b4 s.b5, mixRow s.b7 s.b4 s.b5 s.b6,
   mixRow s.b8 s.b9 s.b10 s.b11, mixRow s.b9 s.b10 s.b11 s.b8,
   mixRow s.b10 s.b11 s.b8 s.b9, mixRow s.b11 s.b8 s.b9 s.b10,
   mixRow s.b12 s.b13 s.b14 s.b15, mixRow s.b13 s.b14 s.b15 s.b12,
   mixRow s.b14 s.b15 s.b12 s.b13, mixRow s.b15 s.b12 s.b13 s.b14⟩

/-- InvMixColumns step (proof tool). -/
def invMixColumnsB (s : Block) : Block :=
  ⟨invMixRow s.b0 s.b1 s.b2 s.b3, invMixRow s.b1 s.b2 s.b3 s.b0,
   invMixRow s.b2 s.b3 s.b0 s.b1, invMixRow s.b3 s.b0 s.b1 s.b2,
   invMixRow s.b4 s.b5 s.b6 s.b7, invMixRow s.b5 s.b6 s.b7 s.b4,
   invMixRow s.b6 s.b7 s.b4 s.b5, invMixRow s.b7 s.b4 s.b5 s.b6,
   invMixRow s.b8 s.b9 s.b10 s.b11, invMixRow s.b9 s.b10 s.b11 s.b8,
   invMixRow s.b10 s.b11 s.b8 s.b9, invMixRow s.b11 s.b8 s.b9 s.b10,
   invMixRow s.b12 s.b13 s.b14 s.b15, invMixRow s.b13 s.b14 s.b15 s.b12,
   invMixRow s.b14 s.b15 s.b12 s.b13, invMixRow s.b15 s.b12 s.b13 s.b14⟩

/-- AddRoundKey step. -/
def addRoundKeyB (s k : Block) : Block :=
  ⟨byteXor s.b0 k.b0, byteXor s.b1 k.b1, byteXor s.b2 k.b2, byteXor s.b3 k.b3,
   byteXor s.b4 k.b4, byteXor s.b5 k.b5, byteXor s.b6 k.b6, byteXor s.b7 k.b7,
   byteXor s.b8 k.b8, byteXor s.b9 k.b9, byteXor s.b10 k.b10, byteXor s.b11 k.b11,
   byteXor s.b12 k.b12, byteXor s.b13 k.b13, byteXor s.b14 k.b14, byteXor s.b15 k.b15⟩

/-- Convert the first 16 entries of a byte list to an AES state. -/
def listToBlock (l : List Nat) : Block :=
  ⟨l.getD 0 0, l.getD 1 0, l.getD 2 0, l.getD 3 0, l.getD 4 0, l.getD 5 0,
   l.getD 6 0, l.getD 7 0, l.getD 8 0, l.getD 9 0, l.getD 10 0, l.getD 11 0,
   l.getD 12 0, l.getD 13 0, l.getD 14 0, l.getD 15 0⟩

/-- Bytes of an AES state in order. -/
def blockToList (s : Block) : List Nat :=
  [s.b0, s.b1, s.b2, s.b3, s.b4, s.b5, s.b6, s.b7,
   s.b8, s.b9, s.b10, s.b11, s.b12, s.b13, s.b14, s.b15]

/-- All sixteen bytes of an AES state are in range. -/
def blockValid (s : Block) : Prop :=
  s.b0 < 256 ∧ s.b1 < 256 ∧ s.b2 < 256 ∧ s.b3 < 256 ∧
  s.b4 < 256 ∧ s.b5 < 256 ∧ s.b6 < 256 ∧ s.b7 < 256 ∧
  s.b8 < 256 ∧ s.b9 < 256 ∧ s.b10 < 256 ∧ s.b11 < 256 ∧
  s.b12 < 256 ∧ s.b13 < 256 ∧ s.b14 < 256 ∧ s.b15 < 256

/-- Round constants of the AES key schedule. -/
def rconList : List Nat := [1, 2, 4, 8, 16, 32, 64, 128, 27, 54]

/-- Rotate a 4-byte word left by one byte. -/
def rotWord : List Nat → List Nat
  | a :: rest => rest ++ [a]
  | [] => []

/-- Apply the S-box to every byte of a word. -/
def subWord (w : List Nat) : List Nat := w.map sbox

/-- Pointwise XOR of two words. -/
def xorWords (a b : List Nat) : List Nat := List.zipWith byteXor a b

/-- Iteratively append `n` further AES key-schedule words. -/
def expandWordsFrom (ws : List (List Nat)) : Nat → List (List Nat)
  | 0 => ws
  | n + 1 =>
      let i := ws.length
      let prev1 := ws.getD (i - 1) []
      let prev4 := ws.getD (i - 4) []
      let temp :=
        if i % 4 == 0 then
          xorWords (subWord (rotWord prev1)) [rconList.getD (i / 4 - 1) 0, 0, 0, 0]
        else prev1
      expandWordsFrom (ws ++ [xorWords prev4 temp]) n

/-- Group key-schedule words into round-key blocks of four words each. -/
def wordsToBlocks : List (List Nat) → List Block
  | w0 :: w1 :: w2 :: w3 :: rest =>
      listToBlock (w0 ++ w1 ++ w2 ++ w3) :: wordsToBlocks rest
  | _ => []

/-- AES-128 key schedule: 11 round keys from a 16-byte key. -/
def keyExpansion (key : List Nat) : List Block :=
  let w0 := key.take 4
  let w1 := (key.drop 4).take 4
  let w2 := (key.drop 8).take 4
  let w3 := (key.drop 12).take 4
  wordsToBlocks (expandWordsFrom [w0, w1, w2, w3] 40)

/-- Main rounds of AES encryption; the last listed key belongs to the final
round, which omits MixColumns. -/
def aesRounds : List Block → Block → Block
  | [], s => s
  | [k], s => addRoundKeyB (shiftRowsB (subBytesB s)) k
  | k :: k2 :: ks, s =>
      aesRounds (k2 :: ks) (addRoundKeyB (mixColumnsB (shiftRowsB (subBytesB s))) k)

/-- AES-128 block encryption with expanded round keys. -/
def aesEncryptB (rks : List Block) (s : Block) : Block :=
  match rks with
  | [] => s
  | k0 :: rest => aesRounds rest (addRoundKeyB s k0)

/-- Inverse of `aesRounds` (proof tool). -/
def invAesRounds : List Block → Block → Block
  | [], t => t
  | [k], t => invSubBytesB (invShiftRowsB (addRoundKeyB t k))
  | k :: k2 :: ks, t =>
      invSubBytesB (invShiftRowsB (invMixColumnsB
        (addRoundKeyB (invAesRounds (k2 :: ks) t) k)))

/-- AES-128 block decryption (proof tool). -/
def aesDecryptB (rks : List Block) (t : Block) : Block :=
  match rks with
  | [] => t
  | k0 :: rest => addRoundKeyB (invAesRounds rest t) k0

/-! ## CBC mode and `encryptMessage` -/

/-- Pointwise XOR of two byte lists. -/
def zipXorBytes (a b : List Nat) : List Nat := List.zipWith byteXor a b

/-- CBC-mode AES encryption over 16-byte blocks starting from `prev`
(initially the IV): each ciphertext block encrypts the plaintext block
XORed with the previous ciphertext block. -/
def cbcEncryptBlocks (rks : List Block) (prev : List Nat) :
    List (List Nat) → List (List Nat)
  | [] => []
  | blk :: rest =>
      let c := blockToList (aesEncryptB rks (listToBlock (zipXorBytes blk prev)))
      c :: cbcEncryptBlocks rks c rest

/-- Model of `encryptMessage` from `src/crypto.ts`: derive the key from the
password, UTF-8 encode and PKCS7-pad the plaintext, AES-128-CBC encrypt it
with the supplied 16-byte IV (built-in padding disabled), and render the
ciphertext with the custom Base64 encoding. -/
def encryptMessage (plaintext password : String) (iv : List Nat) : String :=
  let key := deriveEncryptionKey password
  let plaintextBytes := utf8Encode plaintext
  let padded := applyPKCS7Padding plaintextBytes 16
  let rks := keyExpansion key
  customBase64Encode (cbcEncryptBlocks rks iv (chunks16 padded)).flatten


-- THEOREMS BELOW

/-! ## Helper lemmas for the retry engine -/

theorem retryGo_calls_le {T : Type} (maxRetries : Nat)
    (outcomes : Nat → AttemptOutcome T) :
    ∀ (fuel attempt : Nat), (retryGo maxRetries outcomes attempt fuel).calls ≤ fuel := by
  intro fuel
  induction fuel with
  | zero => intro attempt; simp [retryGo]
  | succ n ih =>
      intro attempt
      have hrec := ih (attempt + 1)
      simp only [retryGo]
      split
      · simp
      · simp
      · split
        · simp
        · simp
          omega

theorem retryGo_skip {T : Type} (maxRetries : Nat)
    (outcomes : Nat → AttemptOutcome T) :
    ∀ (i attempt fuel : Nat),
      attempt + i ≤ maxRetries →
      (∀ j, j < i → isRetryableFailure (outcomes (attempt + j)) = true) →
      attempt + fuel = maxRetries + 1 →
      retryGo maxRetries outcomes attempt fuel =
        { result := (retryGo maxRetries outcomes (attempt + i) (fuel - i)).result,
          calls := (retryGo maxRetries outcomes (attempt + i) (fuel - i)).calls + i,
          delays := expectedDelaysFrom outcomes attempt i ++
            (retryGo maxRetries outcomes (attempt + i) (fuel - i)).delays } := by
  intro i
  induction i with
  | zero =>
      intro attempt fuel _ _ _
      simp [expectedDelaysFrom]
  | succ n ih =>
      intro attempt fuel hle hpre hfuel
      have h0 := hpre 0 (Nat.succ_pos n)
      obtain ⟨e, he, hr⟩ : ∃ e, outcomes attempt = .wpError e ∧ e.isRetryable = true := by
        simp only [Nat.add_zero] at h0
        cases h : outcomes attempt with
        | success v => rw [h] at h0; simp [isRetryableFailure] at h0
        | other o => rw [h] at h0; simp [isRetryableFailure] at h0
        | wpError e =>
            refine ⟨e, rfl, ?_⟩
            rw [h] at h0; simpa [isRetryableFailure] using h0
      have hlt : attempt < maxRetries := by omega
      obtain ⟨f, rfl⟩ : ∃ f, fuel = f + 1 := ⟨fuel - 1, by omega⟩
      have hne : (attempt == maxRetries) = false := by
        simp only [beq_eq_false_iff_ne]; omega
      have hcond : (!e.isRetryable || attempt == maxRetries) = false := by
        simp [hr, hne]
      have ihx := ih (attempt + 1) f (by omega)
        (fun j hj => by
          have := hpre (j + 1) (by omega)
          simpa [Nat.add_comm, Nat.add_left_comm, Nat.add_assoc] using this)
        (by omega)
      simp only [retryGo, he, hcond, Bool.false_eq_true, if_false, ihx]
      have harith1 : attempt + 1 + n = attempt + (n + 1) := by omega
      have harith2 : f - n = f + 1 - (n + 1) := by omega
      simp only [expectedDelaysFrom, he, harith1, harith2, List.cons_append,
        RunTrace.mk.injEq]
      exact ⟨trivial, by omega, trivial⟩

theorem retryGo_stop_success {T : Type} (maxRetries : Nat)
    (outcomes : Nat → AttemptOutcome T) (attempt fuel : Nat) (v : T)
    (h : outcomes attempt = .success v) :
    retryGo maxRetries outcomes attempt (fuel + 1) =
      { result := .ok v, calls := 1, delays := [] } := by
  simp [retryGo, h]

theorem retryGo_stop_err {T : Type} (maxRetries : Nat)
    (outcomes : Nat → AttemptOutcome T) (attempt fuel : Nat) (e : WirePusherError)
    (h : outcomes attempt = .wpError e)
    (hstop : e.isRetryable = false ∨ attempt = maxRetries) :
    retryGo maxRetries outcomes attempt (fuel + 1) =
      { result := .err e, calls := 1, delays := [] } := by
  have hcond : (!e.isRetryable || attempt == maxRetries) = true := by
    rcases hstop with h1 | h1 <;> simp [h1]
  simp [retryGo, h, hcond]

/-! ## C2: retry loop attempt semantics -/

/-- C2: one logical send performs attempts 0..maxRetries at most; a
successful attempt after a prefix of retryable failures returns its parsed
result with exactly that many network calls; a non-retryable failure, or a
failure at attempt index `maxRetries`, surfaces the last error immediately
with no further wait or attempt. In particular with `maxRetries = 0` a
retryable failure is raised immediately with no wait and exactly 1 call,
and with `maxRetries = 1` a retryable SERVER failure followed by a success
yields exactly 2 calls and the second result. -/
theorem executeWithRetry_attempt_semantics {T : Type}
    (maxRetries : Nat) (outcomes : Nat → AttemptOutcome T) :
    (executeWithRetry maxRetries outcomes).calls ≤ maxRetries + 1 ∧
    (∀ i v, i ≤ maxRetries →
      (∀ j, j < i → isRetryableFailure (outcomes j) = true) →
      outcomes i = .success v →
      executeWithRetry maxRetries outcomes =
        { result := .ok v, calls := i + 1,
          delays := expectedDelaysFrom outcomes 0 i }) ∧
    (∀ i e, i ≤ maxRetries →
      (∀ j, j < i → isRetryableFailure (outcomes j) = true) →
      outcomes i = .wpError e →
      (e.isRetryable = false ∨ i = maxRetries) →
      executeWithRetry maxRetries outcomes =
        { result := .err e, calls := i + 1,
          delays := expectedDelaysFrom outcomes 0 i }) ∧
    (∀ e, maxRetries = 0 → outcomes 0 = .wpError e → e.isRetryable = true →
      executeWithRetry maxRetries outcomes =
        { result := .err e, calls := 1, delays := [] }) ∧
    (∀ e v, maxRetries = 1 → outcomes 0 = .wpError e → e.code = .SERVER_ERROR →
      e.isRetryable = true → outcomes 1 = .success v →
      (executeWithRetry maxRetries outcomes).result = .ok v ∧
      (executeWithRetry maxRetries outcomes).calls = 2) := by
  have hskip := retryGo_skip maxRetries outcomes
  have hsucc : ∀ i v, i ≤ maxRetries →
      (∀ j, j < i → isRetryableFailure (outcomes j) = true) →
      outcomes i = .success v →
      executeWithRetry maxRetries outcomes =
        { result := .ok v, calls := i + 1,
          delays := expectedDelaysFrom outcomes 0 i } := by
    intro i v hle hpre hout
    have h1 := hskip i 0 (maxRetries + 1) (by omega) (fun j hj => by simpa using hpre j hj) (by omega)
    obtain ⟨g, hg⟩ : ∃ g, maxRetries + 1 - i = g + 1 := ⟨maxRetries - i, by omega⟩
    rw [hg] at h1
    have h2 := retryGo_stop_success maxRetries outcomes i g v (by simpa using hout)
    simp only [Nat.zero_add] at h1
    rw [executeWithRetry, h1, h2]
    simp [RunTrace.mk.injEq, Nat.add_comm]
  have herr : ∀ i e, i ≤ maxRetries →
      (∀ j, j < i → isRetryableFailure (outcomes j) = true) →
      outcomes i = .wpError e →
      (e.isRetryable = false ∨ i = maxRetries) →
      executeWithRetry maxRetries outcomes =
        { result := .err e, calls := i + 1,
          delays := expectedDelaysFrom outcomes 0 i } := by
    intro i e hle hpre hout hstop
    have h1 := hskip i 0 (maxRetries + 1) (by omega) (fun j hj => by simpa using hpre j hj) (by omega)
    obtain ⟨g, hg⟩ : ∃ g, maxRetries + 1 - i = g + 1 := ⟨maxRetries - i, by omega⟩
    rw [hg] at h1
    have h2 := retryGo_stop_err maxRetries outcomes i g e (by simpa using hout) hstop
    simp only [Nat.zero_add] at h1
    rw [executeWithRetry, h1, h2]
    simp [RunTrace.mk.injEq, Nat.add_comm]
  refine ⟨retryGo_calls_le maxRetries outcomes (maxRetries + 1) 0, hsucc, herr, ?_, ?_⟩
  · intro e h0 hout hr
    have := herr 0 e (by omega) (by omega) hout (Or.inr h0.symm)
    simpa [expectedDelaysFrom] using this
  · intro e v h1 hout0 _ hr hout1
    have := hsucc 1 v (by omega) (fun j hj => by
        interval_cases j
        simp [isRetryableFailure, hout0, hr]) hout1
    rw [this]
    exact ⟨rfl, rfl⟩

/-- Witness for C2 at concrete inputs: `maxRetries = 1`, a retryable SERVER
failure at attempt 0 followed by a success at attempt 1 gives result 42
with exactly 2 calls. -/
theorem executeWithRetry_attempt_semantics_witness :
    (executeWithRetry 1 (fun n => if n = 0
        then AttemptOutcome.wpError
          { message := "API error (500): boom", code := .SERVER_ERROR,
            isRetryable := true, retryAfterSeconds := none }
        else AttemptOutcome.success (42 : Nat))).result = .ok 42 ∧
    (executeWithRetry 1 (fun n => if n = 0
        then AttemptOutcome.wpError
          { message := "API error (500): boom", code := .SERVER_ERROR,
            isRetryable := true, retryAfterSeconds := none }
        else AttemptOutcome.success (42 : Nat))).calls = 2 :=
  (executeWithRetry_attempt_semantics 1 _).2.2.2.2
    { message := "API error (500): boom", code := .SERVER_ERROR,
      isRetryable := true, retryAfterSeconds := none } 42
    rfl (by decide) (by decide) (by decide) (by decide)

/-! ## C4: backoff formula -/

/-- C4: the wait inserted after failed attempt `n` (zero-indexed, hence
before retry attempt `n`) is `min(30000, base * 2^n)` with base 1000 for
NETWORK/TIMEOUT/SERVER errors and base 5000 for RATE_LIMIT errors, except
that a RATE_LIMIT error carrying a parsed `Retry-After` hint of `s` seconds
waits exactly `s * 1000` ms; the last conjunct shows the loop inserts
exactly this delay after a failed retryable attempt. -/
theorem backoff_delay_spec :
    (∀ (e : WirePusherError) (n : Nat),
      (e.code = .NETWORK_ERROR ∨ e.code = .TIMEOUT ∨ e.code = .SERVER_ERROR) →
      computeDelay e n = ((min 30000 (1000 * 2 ^ n) : Nat) : Int)) ∧
    (∀ (e : WirePusherError) (n : Nat),
      e.code = .RATE_LIMIT → e.retryAfterSeconds = none →
      computeDelay e n = ((min 30000 (5000 * 2 ^ n) : Nat) : Int)) ∧
    (∀ (e : WirePusherError) (n : Nat) (s : Int),
      e.code = .RATE_LIMIT → e.retryAfterSeconds = some s →
      computeDelay e n = s * 1000) ∧
    (∀ {T : Type} (maxRetries : Nat) (outcomes : Nat → AttemptOutcome T)
       (i : Nat) (e : WirePusherError),
      i < maxRetries →
      (∀ j, j < i → isRetryableFailure (outcomes j) = true) →
      outcomes i = .wpError e → e.isRetryable = true →
      ∃ rest, (executeWithRetry maxRetries outcomes).delays =
        expectedDelaysFrom outcomes 0 i ++ computeDelay e i :: rest) := by
  refine ⟨?_, ?_, ?_, ?_⟩
  · intro e n h
    rcases h with h | h | h <;>
      simp [computeDelay, calculateBackoff, h, Nat.min_comm]
  · intro e n h hra
    simp [computeDelay, calculateBackoff, h, hra, Nat.min_comm]
  · intro e n s h hra
    simp [computeDelay, h, hra]
  · intro T maxRetries outcomes i e hi hpre hout hr
    have h1 := retryGo_skip maxRetries outcomes i 0 (maxRetries + 1) (by omega)
      (fun j hj => by simpa using hpre j hj) (by omega)
    simp only [Nat.zero_add] at h1
    obtain ⟨g, hg⟩ : ∃ g, maxRetries + 1 - i = g + 1 := ⟨maxRetries - i, by omega⟩
    rw [hg] at h1
    have hne : (i == maxRetries) = false := by
      simp only [beq_eq_false_iff_ne]; omega
    have hstep : retryGo maxRetries outcomes i (g + 1) =
        { result := (retryGo maxRetries outcomes (i + 1) g).result,
          calls := (retryGo maxRetries outcomes (i + 1) g).calls + 1,
          delays := computeDelay e i :: (retryGo maxRetries outcomes (i + 1) g).delays } := by
      simp [retryGo, hout, hr, hne]
    refine ⟨(retryGo maxRetries outcomes (i + 1) g).delays, ?_⟩
    rw [executeWithRetry, h1, hstep]

/-- Witness for C4 at concrete inputs: a SERVER error at attempt 1 waits
`min(30000, 1000 * 2) = 2000` ms; a RATE_LIMIT error without a hint at
attempt 0 waits 5000 ms; one with hint 10 waits 10000 ms. -/
theorem backoff_delay_spec_witness :
    computeDelay
      { message := "API error (500): x", code := .SERVER_ERROR,
        isRetryable := true, retryAfterSeconds := none } 1 =
      ((min 30000 (1000 * 2 ^ 1) : Nat) : Int) ∧
    computeDelay
      { message := "Rate limit exceeded: x", code := .RATE_LIMIT,
        isRetryable := true, retryAfterSeconds := none } 0 =
      ((min 30000 (5000 * 2 ^ 0) : Nat) : Int) ∧
    computeDelay
      { message := "Rate limit exceeded: x", code := .RATE_LIMIT,
        isRetryable := true, retryAfterSeconds := some 10 } 2 = 10 * 1000 :=
  ⟨backoff_delay_spec.1 _ 1 (Or.inr (Or.inr rfl)),
   backoff_delay_spec.2.1 _ 0 rfl rfl,
   backoff_delay_spec.2.2.1 _ 2 10 rfl rfl⟩

/-! ## C3: status-code classifier table -/

set_option maxRecDepth 10000 in
/-- C3: the classifier maps each completed non-2xx status to exactly the
fixed (kind, retryable) table: 400 VALIDATION / 401 AUTH_INVALID /
403 AUTH_FORBIDDEN / 404 NOT_FOUND not retryable, 429 RATE_LIMIT retryable
with the Retry-After seconds attached when the header is present, truthy
and parses, 500/502/503/504 SERVER retryable, anything else UNKNOWN not
retryable. -/
theorem handleErrorResponse_table (headers : HeaderList) (em : String) :
    ((handleErrorResponse 400 headers em).code = .VALIDATION_ERROR ∧
      (handleErrorResponse 400 headers em).isRetryable = false ∧
      (handleErrorResponse 400 headers em).retryAfterSeconds = none) ∧
    ((handleErrorResponse 401 headers em).code = .AUTH_INVALID ∧
      (handleErrorResponse 401 headers em).isRetryable = false ∧
      (handleErrorResponse 401 headers em).retryAfterSeconds = none) ∧
    ((handleErrorResponse 403 headers em).code = .AUTH_FORBIDDEN ∧
      (handleErrorResponse 403 headers em).isRetryable = false ∧
      (handleErrorResponse 403 headers em).retryAfterSeconds = none) ∧
    ((handleErrorResponse 404 headers em).code = .NOT_FOUND ∧
      (handleErrorResponse 404 headers em).isRetryable = false ∧
      (handleErrorResponse 404 headers em).retryAfterSeconds = none) ∧
    ((handleErrorResponse 429 headers em).code = .RATE_LIMIT ∧
      (handleErrorResponse 429 headers em).isRetryable = true ∧
      (handleErrorResponse 429 headers em).retryAfterSeconds =
        (match headersGet headers "Retry-After" with
         | none => none
         | some h => if h.isEmpty then none else parseIntJS h)) ∧
    (∀ s, s = 500 ∨ s = 502 ∨ s = 503 ∨ s = 504 →
      (handleErrorResponse s headers em).code = .SERVER_ERROR ∧
      (handleErrorResponse s headers em).isRetryable = true ∧
      (handleErrorResponse s headers em).retryAfterSeconds = none) ∧
    (∀ s, s ∉ [400, 401, 403, 404, 429, 500, 502, 503, 504] →
      (handleErrorResponse s headers em).code = .UNKNOWN ∧
      (handleErrorResponse s headers em).isRetryable = false ∧
      (handleErrorResponse s headers em).retryAfterSeconds = none) := by
  refine ⟨⟨rfl, rfl, rfl⟩, ⟨rfl, rfl, rfl⟩, ⟨rfl, rfl, rfl⟩, ⟨rfl, rfl, rfl⟩,
    ?_, ?_, ?_⟩
  · cases h : headersGet headers "Retry-After" with
    | none => refine ⟨?_, ?_, ?_⟩ <;> simp [handleErrorResponse, h]
    | some hv =>
        by_cases he : hv.isEmpty
        · refine ⟨?_, ?_, ?_⟩ <;> simp [handleErrorResponse, h, he]
        · cases hp : parseIntJS hv <;>
            (refine ⟨?_, ?_, ?_⟩ <;> simp [handleErrorResponse, h, he, hp])
  · intro s hs
    rcases hs with h | h | h | h <;> subst h <;> refine ⟨rfl, rfl, rfl⟩
  · intro s hs
    simp only [List.mem_cons, List.not_mem_nil, or_false] at hs
    push_neg at hs
    obtain ⟨h400, h401, h403, h404, h429, h500, h502, h503, h504⟩ := hs
    refine ⟨?_, ?_, ?_⟩ <;> (simp only [handleErrorResponse]; try rfl)

/-- Witness for C3 at concrete inputs: status 418 with no special headers
is UNKNOWN and not retryable. -/
theorem handleErrorResponse_table_witness :
    (handleErrorResponse 418 [] "I'm a teapot").code = .UNKNOWN ∧
    (handleErrorResponse 418 [] "I'm a teapot").isRetryable = false ∧
    (handleErrorResponse 418 [] "I'm a teapot").retryAfterSeconds = none :=
  (handleErrorResponse_table [] "I'm a teapot").2.2.2.2.2.2 418 (by decide)

/-! ## C5: transport-level failure classification -/

/-- C5: failures thrown during the network call are classified as: abort of
the timed-out request (`AbortError`) to TIMEOUT retryable; any other thrown
`Error` to NETWORK retryable; a thrown non-`Error` value to UNKNOWN, not
retryable, with its string representation embedded in the message. -/
theorem sendRequestCatch_transport (timeoutMs : Int) :
    (∀ m, (sendRequestCatch timeoutMs (.jsError "AbortError" m)).code = .TIMEOUT ∧
      (sendRequestCatch timeoutMs (.jsError "AbortError" m)).isRetryable = true) ∧
    (∀ name m, name ≠ "AbortError" →
      (sendRequestCatch timeoutMs (.jsError name m)).code = .NETWORK_ERROR ∧
      (sendRequestCatch timeoutMs (.jsError name m)).isRetryable = true) ∧
    (∀ r, (sendRequestCatch timeoutMs (.nonError r)).code = .UNKNOWN ∧
      (sendRequestCatch timeoutMs (.nonError r)).isRetryable = false ∧
      (sendRequestCatch timeoutMs (.nonError r)).message = "Unexpected error: " ++ r) := by
  refine ⟨fun m => by simp [sendRequestCatch], fun name m h => ?_, fun r => ?_⟩
  · have hb : (name == "AbortError") = false := beq_eq_false_iff_ne.mpr h
    simp [sendRequestCatch, hb]
  · refine ⟨by simp [sendRequestCatch], by simp [sendRequestCatch], ?_⟩
    simp [sendRequestCatch]

/-- Witness for C5 at concrete inputs: a thrown `TypeError` is classified
NETWORK and retryable. -/
theorem sendRequestCatch_transport_witness :
    (sendRequestCatch 30000 (.jsError "TypeError" "fetch failed")).code = .NETWORK_ERROR ∧
    (sendRequestCatch 30000 (.jsError "TypeError" "fetch failed")).isRetryable = true :=
  (sendRequestCatch_transport 30000).2.1 "TypeError" "fetch failed" (by decide)

/-! ## C1: rate-limit snapshot update rule -/

theorem truthyStr_eq_true_iff (o : Option String) :
    truthyStr o = true ↔ ∃ s, o = some s ∧ s ≠ "" := by
  cases o with
  | none => simp [truthyStr]
  | some s =>
      have h := String.isEmpty_iff s
      simp only [truthyStr, Option.some.injEq]
      constructor
      · intro h1
        refine ⟨s, rfl, fun hc => ?_⟩
        subst hc
        exact absurd h1 (by decide)
      · rintro ⟨s2, heq, hne⟩
        cases heq
        cases hb : s.isEmpty
        · rfl
        · exact absurd (h.mp hb) hne

/-- C1 (amended): the stored snapshot is replaced if and only if the attempt
yields a completed response (successful or not) in which all three headers
RateLimit-Limit, RateLimit-Remaining and RateLimit-Reset are present,
non-empty and parse as integers; the replacement always stores the fully
parsed snapshot with the reset converted to absolute epoch-milliseconds, so
no partial snapshot is ever stored, and thrown attempts or responses with a
missing/unparseable header leave the snapshot entirely unchanged. -/
theorem rateLimit_snapshot_update {T : Type} (timeoutMs : Int)
    (st : Option RateLimitInfo) (out : FetchOutcome T) :
    ((sendRequestModel timeoutMs st out).1 =
      (match out with
       | .completed resp _ _ =>
           (match parseRateLimitHeaders resp.headers with
            | some info => some info
            | none => st)
       | .threw _ => st)) ∧
    (∀ (hs : HeaderList) (info : RateLimitInfo),
      parseRateLimitHeaders hs = some info ↔
        ∃ l r t ln rn tn,
          headersGet hs "RateLimit-Limit" = some l ∧ l ≠ "" ∧
          headersGet hs "RateLimit-Remaining" = some r ∧ r ≠ "" ∧
          headersGet hs "RateLimit-Reset" = some t ∧ t ≠ "" ∧
          parseIntJS l = some ln ∧ parseIntJS r = some rn ∧ parseIntJS t = some tn ∧
          info = { limit := ln, remaining := rn, resetMillis := tn * 1000 }) := by
  constructor
  · cases out with
    | completed resp em v =>
        cases h : resp.ok <;> simp [sendRequestModel, h, updateRateLimit]
    | threw t => simp [sendRequestModel]
  · intro hs info
    constructor
    · intro h
      simp only [parseRateLimitHeaders] at h
      by_cases hc : (truthyStr (headersGet hs "RateLimit-Limit") &&
          truthyStr (headersGet hs "RateLimit-Remaining") &&
          truthyStr (headersGet hs "RateLimit-Reset")) = true
      · rw [if_pos hc] at h
        have hc' := hc
        simp only [Bool.and_eq_true] at hc'
        obtain ⟨⟨hA, hB⟩, hC⟩ := hc'
        obtain ⟨l, hl, hlne⟩ := (truthyStr_eq_true_iff _).mp hA
        obtain ⟨r, hr, hrne⟩ := (truthyStr_eq_true_iff _).mp hB
        obtain ⟨t, ht, htne⟩ := (truthyStr_eq_true_iff _).mp hC
        rw [hl, hr, ht] at h
        simp only [Option.getD_some] at h
        cases hpl : parseIntJS l with
        | none => rw [hpl] at h; cases hpr : parseIntJS r <;> cases hpt : parseIntJS t <;>
            rw [hpr, hpt] at h <;> simp at h
        | some ln =>
            cases hpr : parseIntJS r with
            | none => rw [hpl, hpr] at h; cases hpt : parseIntJS t <;>
                rw [hpt] at h <;> simp at h
            | some rn =>
                cases hpt : parseIntJS t with
                | none => rw [hpl, hpr, hpt] at h; simp at h
                | some tn =>
                    rw [hpl, hpr, hpt] at h
                    simp only [Option.some.injEq] at h
                    exact ⟨l, r, t, ln, rn, tn, hl, hlne, hr, hrne, ht, htne,
                      hpl, hpr, hpt, h.symm⟩
      · rw [if_neg hc] at h
        exact absurd h (by simp)
    · rintro ⟨l, r, t, ln, rn, tn, hl, hlne, hr, hrne, ht, htne, hpl, hpr, hpt, rfl⟩
      have hA : truthyStr (headersGet hs "RateLimit-Limit") = true :=
        (truthyStr_eq_true_iff _).mpr ⟨l, hl, hlne⟩
      have hB : truthyStr (headersGet hs "RateLimit-Remaining") = true :=
        (truthyStr_eq_true_iff _).mpr ⟨r, hr, hrne⟩
      have hC : truthyStr (headersGet hs "RateLimit-Reset") = true :=
        (truthyStr_eq_true_iff _).mpr ⟨t, ht, htne⟩
      rw [hl] at hA; rw [hr] at hB; rw [ht] at hC
      simp [parseRateLimitHeaders, hl, hr, ht, hA, hB, hC, hpl, hpr, hpt]

/-- Witness for C1 (amended) at concrete inputs: a successful response with
the three valid headers replaces an empty snapshot with the parsed one. -/
theorem rateLimit_snapshot_update_witness :
    (sendRequestModel (T := Unit) 30000 none
        (.completed
          { ok := true, status := 200,
            headers := [("RateLimit-Limit", "100"), ("RateLimit-Remaining", "95"),
                        ("RateLimit-Reset", "1700000000")] }
          "" ())).1 =
      some { limit := 100, remaining := 95, resetMillis := 1700000000000 } := by
  have h := (rateLimit_snapshot_update (T := Unit) 30000 none
    (.completed
      { ok := true, status := 200,
        headers := [("RateLimit-Limit", "100"), ("RateLimit-Remaining", "95"),
                    ("RateLimit-Reset", "1700000000")] }
      "" ())).1
  rw [h]
  decide

/-- C1 counterexample: an UNSUCCESSFUL completed response (`ok = false`,
status 429) that carries all three valid rate-limit headers DOES replace the
snapshot (here from `none` to a parsed value), refuting the claim that for
every unsuccessful response the snapshot is left entirely unchanged. -/
theorem rateLimit_updated_on_unsuccessful_response :
    ((sendRequestModel (T := Unit) 30000 none
        (.completed
          { ok := false, status := 429,
            headers := [("RateLimit-Limit", "100"), ("RateLimit-Remaining", "0"),
                        ("RateLimit-Reset", "1700000000")] }
          "Rate limit exceeded: quota" ())).1 =
      some { limit := 100, remaining := 0, resetMillis := 1700000000000 }) ∧
    (({ ok := false, status := 429,
        headers := [("RateLimit-Limit", "100"), ("RateLimit-Remaining", "0"),
                    ("RateLimit-Reset", "1700000000")] } : HttpResponse).ok = false) := by
  exact ⟨by decide, rfl⟩

/-! ## C10: the snapshot is never cleared once set -/

/-- C10: once any response has stored a snapshot, `getRateLimitInfo` returns
a non-null value after every subsequent sequence of network events, because
the only mutation is a whole-value replacement with a fully parsed snapshot. -/
theorem rateLimit_snapshot_never_cleared {T : Type} (v : RateLimitInfo)
    (events : List (FetchOutcome T)) :
    getRateLimitInfo (events.foldl clientStep (some v)) ≠ none := by
  have main : ∀ (evs : List (FetchOutcome T)) (w : RateLimitInfo),
      evs.foldl clientStep (some w) ≠ none := by
    intro evs
    induction evs with
    | nil => intro w; simp
    | cons ev rest ih =>
        intro w
        simp only [List.foldl_cons]
        cases ev with
        | threw t => exact ih w
        | completed resp em j =>
            simp only [clientStep, updateRateLimit]
            cases h : parseRateLimitHeaders resp.headers with
            | none => exact ih w
            | some info => exact ih info
  exact main events v

/-! ## C7: PKCS7 padding -/

theorem applyPKCS7Padding_eq (data : List Nat) (blockSize : Nat) :
    applyPKCS7Padding data blockSize =
      data ++ List.replicate (blockSize - data.length % blockSize)
        (blockSize - data.length % blockSize) := rfl

theorem applyPKCS7Padding_length (data : List Nat) :
    (applyPKCS7Padding data 16).length = data.length + (16 - data.length % 16) := by
  simp [applyPKCS7Padding]

/-- C7: padding extends every plaintext to the next 16-byte boundary with
bytes whose value is the number of bytes added; the count is between 1 and
16, a plaintext whose length is already a multiple of 16 receives one full
16-byte block, and the padded length is always a strictly larger multiple
of 16 (the cipher itself, modelled without internal padding, adds none). -/
theorem applyPKCS7Padding_spec (data : List Nat) :
    applyPKCS7Padding data 16 =
      data ++ List.replicate (16 - data.length % 16) (16 - data.length % 16) ∧
    1 ≤ 16 - data.length % 16 ∧
    16 - data.length % 16 ≤ 16 ∧
    (applyPKCS7Padding data 16).length = data.length + (16 - data.length % 16) ∧
    (applyPKCS7Padding data 16).length % 16 = 0 ∧
    data.length < (applyPKCS7Padding data 16).length ∧
    (data.length % 16 = 0 → 16 - data.length % 16 = 16) := by
  have hl := applyPKCS7Padding_length data
  refine ⟨rfl, ?_, ?_, hl, ?_, ?_, ?_⟩ <;> omega

/-- Witness for C7 at a concrete input: a 16-byte plaintext gains a full
extra block of bytes 16. -/
theorem applyPKCS7Padding_spec_witness :
    (List.replicate 16 7).length % 16 = 0 ∧
    16 - (List.replicate 16 (7 : Nat)).length % 16 = 16 ∧
    (applyPKCS7Padding (List.replicate 16 7) 16).length = 32 :=
  ⟨by decide, (applyPKCS7Padding_spec (List.replicate 16 7)).2.2.2.2.2.2 (by decide),
   by decide⟩

/-! ## C6: key derivation -/

theorem sha1_length (m : List Nat) : (sha1 m).length = 20 := by
  simp [sha1, wordBytes]

theorem sha1_valid (m : List Nat) : validBytes (sha1 m) := by
  intro b hb
  simp [sha1, wordBytes] at hb
  omega

theorem hexDigitChar_toLower (n : Nat) :
    Char.toLower (hexDigitChar n) = hexDigitChar n := by
  by_cases h : n < 16
  · have hall : ∀ i, i < 16 → Char.toLower (hexDigitChar i) = hexDigitChar i := by decide
    exact hall n h
  · unfold hexDigitChar
    rw [List.getD_eq_default]
    · decide
    · show hexDigits.length ≤ n
      have : hexDigits.length = 16 := rfl
      omega

theorem jsToLowerCase_hexEncode (l : List Nat) :
    jsToLowerCase (hexEncodeBytes l) = hexEncodeBytes l := by
  induction l with
  | nil => rfl
  | cons b rest ih =>
      simp only [hexEncodeBytes, List.flatMap_cons, jsToLowerCase, List.map_append] at *
      rw [ih]
      simp [hexDigitChar_toLower]

theorem hexEncode_take (l : List Nat) :
    ∀ k, (hexEncodeBytes l).take (2 * k) = hexEncodeBytes (l.take k) := by
  induction l with
  | nil => intro k; simp [hexEncodeBytes]
  | cons b rest ih =>
      intro k
      cases k with
      | zero => simp [hexEncodeBytes]
      | succ k' =>
          have h2 : 2 * (k' + 1) = 2 * k' + 1 + 1 := by omega
          simp only [hexEncodeBytes, List.flatMap_cons, List.take_succ_cons, h2,
            List.cons_append, List.nil_append]
          simp only [hexEncodeBytes] at ih
          rw [ih k']

theorem hexCharVal_hexDigitChar : ∀ i, i < 16 → hexCharVal (hexDigitChar i) = i := by
  decide

theorem hexDecode_hexEncode (l : List Nat) (h : validBytes l) :
    hexDecode (hexEncodeBytes l) = l := by
  induction l with
  | nil => rfl
  | cons b rest ih =>
      have hb : b < 256 := h b (List.mem_cons_self b rest)
      have hrest : validBytes rest := fun x hx => h x (List.mem_cons_of_mem _ hx)
      have h1 : b / 16 < 16 := by omega
      have h2 : b % 16 < 16 := by omega
      show hexDecode (hexDigitChar (b / 16) :: hexDigitChar (b % 16) ::
        hexEncodeBytes rest) = b :: rest
      simp only [hexDecode, hexCharVal_hexDigitChar _ h1, hexCharVal_hexDigitChar _ h2]
      rw [if_pos (by simp [h1, h2])]
      rw [ih hrest]
      congr 1
      omega

/-- C6: for every password, the derived encryption key equals the first 16
bytes of the SHA1 digest of the UTF-8 password bytes (obtained by rendering
the 20-byte digest as 40 lowercase hex characters, taking the first 32 and
decoding them back to 16 raw bytes); the result is always exactly 16 bytes
and is a function of the password alone. -/
theorem deriveEncryptionKey_spec (password : String) :
    deriveEncryptionKey password = (sha1 (utf8Encode password)).take 16 ∧
    (deriveEncryptionKey password).length = 16 := by
  have hv := sha1_valid (utf8Encode password)
  have hlen := sha1_length (utf8Encode password)
  have heq : deriveEncryptionKey password = (sha1 (utf8Encode password)).take 16 := by
    show hexDecode (List.take 32 (jsToLowerCase (hexEncodeBytes
      (sha1 (utf8Encode password))))) = (sha1 (utf8Encode password)).take 16
    rw [jsToLowerCase_hexEncode]
    rw [show (32 : Nat) = 2 * 16 from rfl, hexEncode_take]
    exact hexDecode_hexEncode _ (fun b hb => hv b (List.mem_of_mem_take hb))
  refine ⟨heq, ?_⟩
  rw [heq, List.length_take, hlen]
  omega

/-! ## C8: custom Base64 output encoding -/

theorem b64Idx_mem (n : Nat) : b64Idx n ∈ b64Alphabet := by
  by_cases h : n < 64
  · have hall : ∀ i, i < 64 → b64Idx i ∈ b64Alphabet := by decide
    exact hall n h
  · unfold b64Idx
    rw [List.getD_eq_default]
    · decide
    · show b64Alphabet.length ≤ n
      have hlen : b64Alphabet.length = 64 := rfl
      omega

theorem b64Encode_chars_aux :
    ∀ (n : Nat) (l : List Nat), l.length ≤ n →
      ∀ c ∈ b64Encode l, c ∈ b64Alphabet ∨ c = '=' := by
  intro n
  induction n with
  | zero =>
      intro l hl c hc
      have hnil : l = [] := List.eq_nil_of_length_eq_zero (Nat.le_zero.mp hl)
      subst hnil
      simp [b64Encode] at hc
  | succ n ih =>
      intro l hl c hc
      rcases l with _ | ⟨b1, _ | ⟨b2, _ | ⟨b3, rest⟩⟩⟩
      · simp [b64Encode] at hc
      · simp only [b64Encode, List.mem_cons, List.not_mem_nil, or_false] at hc
        rcases hc with rfl | rfl | rfl | rfl
        · exact Or.inl (b64Idx_mem _)
        · exact Or.inl (b64Idx_mem _)
        · exact Or.inr rfl
        · exact Or.inr rfl
      · simp only [b64Encode, List.mem_cons, List.not_mem_nil, or_false] at hc
        rcases hc with rfl | rfl | rfl | rfl
        · exact Or.inl (b64Idx_mem _)
        · exact Or.inl (b64Idx_mem _)
        · exact Or.inl (b64Idx_mem _)
        · exact Or.inr rfl
      · simp only [b64Encode, List.mem_cons] at hc
        rcases hc with rfl | rfl | rfl | rfl | h
        · exact Or.inl (b64Idx_mem _)
        · exact Or.inl (b64Idx_mem _)
        · exact Or.inl (b64Idx_mem _)
        · exact Or.inl (b64Idx_mem _)
        · refine ih rest ?_ c h
          simp only [List.length_cons] at hl
          omega

theorem b64Encode_chars (l : List Nat) :
    ∀ c ∈ b64Encode l, c ∈ b64Alphabet ∨ c = '=' :=
  b64Encode_chars_aux l.length l Nat.le.refl

theorem substChar_not_banned :
    ∀ c ∈ b64Alphabet, substChar c ≠ '+' ∧ substChar c ≠ '/' ∧ substChar c ≠ '=' := by
  decide

/-- C8: the output encoding is standard Base64 with each `+` replaced by
`-`, each `/` by `.` and each `=` by `_`; consequently the output never
contains `+`, `/` or `=`, and encoding the empty byte sequence yields the
empty string. -/
theorem customBase64Encode_spec :
    (∀ data : List Nat, (customBase64Encode data).data = (b64Encode data).map substChar) ∧
    (∀ data : List Nat, ∀ c ∈ (customBase64Encode data).data,
      c ≠ '+' ∧ c ≠ '/' ∧ c ≠ '=') ∧
    customBase64Encode [] = "" := by
  refine ⟨fun data => rfl, ?_, rfl⟩
  intro data c hc
  rw [show (customBase64Encode data).data = (b64Encode data).map substChar from rfl] at hc
  rcases List.mem_map.mp hc with ⟨c', hc', rfl⟩
  rcases b64Encode_chars data c' hc' with h | rfl
  · exact substChar_not_banned c' h
  · refine ⟨by decide, by decide, by decide⟩

/-- Witness for C8 at a concrete input: the bytes `fb ff fe` encode to
`-..-`, whose character `-` is none of the banned characters. -/
theorem customBase64Encode_spec_witness :
    '-' ∈ (customBase64Encode [251, 255, 254]).data ∧
    ('-' ≠ '+' ∧ '-' ≠ '/' ∧ '-' ≠ '=') :=
  ⟨by decide, customBase64Encode_spec.2.1 [251, 255, 254] '-' (by decide)⟩

/-! ## Base64 decode roundtrip (towards C9) -/

theorem b64CharVal_b64Idx : ∀ i, i < 64 → b64CharVal (b64Idx i) = i := by decide

theorem b64Idx_ne_eq : ∀ i, i < 64 → b64Idx i ≠ '=' := by decide

theorem b64Decode_b64Encode_aux :
    ∀ (n : Nat) (l : List Nat), l.length ≤ n → validBytes l →
      b64Decode (b64Encode l) = l := by
  intro n
  induction n with
  | zero =>
      intro l hl _
      have hnil : l = [] := List.eq_nil_of_length_eq_zero (Nat.le_zero.mp hl)
      subst hnil
      rfl
  | succ n ih =>
      intro l hl hv
      rcases l with _ | ⟨b1, _ | ⟨b2, _ | ⟨b3, rest⟩⟩⟩
      · rfl
      · have hb1 : b1 < 256 := hv b1 (by simp)
        have h1 : b1 / 4 < 64 := by omega
        have h2 : b1 % 4 * 16 < 64 := by omega
        show b64Decode [b64Idx (b1 / 4), b64Idx (b1 % 4 * 16), '=', '='] = [b1]
        simp only [b64Decode, if_true,
          b64CharVal_b64Idx _ h1, b64CharVal_b64Idx _ h2]
        congr 1
        omega
      · have hb1 : b1 < 256 := hv b1 (by simp)
        have hb2 : b2 < 256 := hv b2 (by simp)
        have h1 : b1 / 4 < 64 := by omega
        have h2 : b1 % 4 * 16 + b2 / 16 < 64 := by omega
        have h3 : b2 % 16 * 4 < 64 := by omega
        show b64Decode [b64Idx (b1 / 4), b64Idx (b1 % 4 * 16 + b2 / 16),
          b64Idx (b2 % 16 * 4), '='] = [b1, b2]
        simp only [b64Decode, if_true, if_neg (b64Idx_ne_eq _ h3),
          b64CharVal_b64Idx _ h1, b64CharVal_b64Idx _ h2, b64CharVal_b64Idx _ h3]
        have e1 : b1 / 4 * 4 + (b1 % 4 * 16 + b2 / 16) / 16 = b1 := by omega
        have e2 : (b1 % 4 * 16 + b2 / 16) % 16 * 16 + b2 % 16 * 4 / 4 = b2 := by omega
        rw [e1, e2]
      · have hb1 : b1 < 256 := hv b1 (by simp)
        have hb2 : b2 < 256 := hv b2 (by simp)
        have hb3 : b3 < 256 := hv b3 (by simp)
        have h1 : b1 / 4 < 64 := by omega
        have h2 : b1 % 4 * 16 + b2 / 16 < 64 := by omega
        have h3 : b2 % 16 * 4 + b3 / 64 < 64 := by omega
        have h4 : b3 % 64 < 64 := by omega
        show b64Decode (b64Idx (b1 / 4) :: b64Idx (b1 % 4 * 16 + b2 / 16) ::
          b64Idx (b2 % 16 * 4 + b3 / 64) :: b64Idx (b3 % 64) :: b64Encode rest) =
          b1 :: b2 :: b3 :: rest
        have hrest : b64Decode (b64Encode rest) = rest := by
          refine ih rest ?_ fun x hx => hv x (by simp [hx])
          simp only [List.length_cons] at hl
          omega
        simp only [b64Decode, if_neg (b64Idx_ne_eq _ h3), if_neg (b64Idx_ne_eq _ h4),
          b64CharVal_b64Idx _ h1, b64CharVal_b64Idx _ h2, b64CharVal_b64Idx _ h3,
          b64CharVal_b64Idx _ h4, hrest]
        have e1 : b1 / 4 * 4 + (b1 % 4 * 16 + b2 / 16) / 16 = b1 := by omega
        have e2 : (b1 % 4 * 16 + b2 / 16) % 16 * 16 + (b2 % 16 * 4 + b3 / 64) / 4 = b2 := by
          omega
        have e3 : (b2 % 16 * 4 + b3 / 64) % 4 * 64 + b3 % 64 = b3 := by omega
        rw [e1, e2, e3]

theorem b64Decode_b64Encode (l : List Nat) (h : validBytes l) :
    b64Decode (b64Encode l) = l :=
  b64Decode_b64Encode_aux l.length l Nat.le.refl h

theorem unsubstChar_substChar : ∀ c ∈ b64Alphabet, unsubstChar (substChar c) = c := by
  decide

theorem customB64Decode_customBase64Encode (l : List Nat) (h : validBytes l) :
    customB64Decode (customBase64Encode l) = l := by
  show b64Decode (((b64Encode l).map substChar).map unsubstChar) = l
  rw [List.map_map]
  have hcong : ∀ c ∈ b64Encode l, (unsubstChar ∘ substChar) c = c := by
    intro c hc
    rcases b64Encode_chars l c hc with hmem | rfl
    · exact unsubstChar_substChar c hmem
    · decide
  rw [List.map_congr_left hcong]
  simp only [List.map_id']
  exact b64Decode_b64Encode l h

theorem customBase64Encode_injOn (l1 l2 : List Nat)
    (h1 : validBytes l1) (h2 : validBytes l2)
    (h : customBase64Encode l1 = customBase64Encode l2) : l1 = l2 := by
  have hd := congrArg customB64Decode h
  rwa [customB64Decode_customBase64Encode l1 h1,
    customB64Decode_customBase64Encode l2 h2] at hd

/-! ## AES byte algebra -/

theorem byteXor_lt (a b : Nat) : byteXor a b < 256 := Nat.mod_lt _ (by norm_num)

theorem xor_mod_256 (x y : Nat) : (x ^^^ y) % 256 = x % 256 ^^^ y % 256 := by
  apply Nat.eq_of_testBit_eq
  intro i
  rw [show (256 : Nat) = 2 ^ 8 from rfl]
  rw [Nat.testBit_mod_two_pow, Nat.testBit_xor, Nat.testBit_xor,
    Nat.testBit_mod_two_pow, Nat.testBit_mod_two_pow]
  by_cases h : i < 8 <;> simp [h]

theorem byteXor_eq (a b : Nat) : byteXor a b = a % 256 ^^^ b % 256 := xor_mod_256 a b

theorem byteXor_mod_left (x y : Nat) : byteXor (x % 256) y = byteXor x y := by
  rw [byteXor_eq, byteXor_eq x y]
  congr 1
  omega

theorem byteXor_mod_right (x y : Nat) : byteXor x (y % 256) = byteXor x y := by
  rw [byteXor_eq, byteXor_eq x y]
  congr 1
  omega

theorem byteXor_assoc (a b c : Nat) :
    byteXor (byteXor a b) c = byteXor a (byteXor b c) := by
  show byteXor ((a ^^^ b) % 256) c = byteXor a ((b ^^^ c) % 256)
  rw [byteXor_mod_left, byteXor_mod_right]
  show ((a ^^^ b) ^^^ c) % 256 = (a ^^^ (b ^^^ c)) % 256
  rw [Nat.xor_assoc]

theorem byteXor_comm (a b : Nat) : byteXor a b = byteXor b a := by
  show (a ^^^ b) % 256 = (b ^^^ a) % 256
  rw [Nat.xor_comm]

instance : Std.Associative byteXor := ⟨byteXor_assoc⟩

instance : Std.Commutative byteXor := ⟨byteXor_comm⟩

theorem byteXor_zero (a : Nat) (h : a < 256) : byteXor a 0 = a := by
  show (a ^^^ 0) % 256 = a
  rw [Nat.xor_zero]
  omega

theorem byteXor_cancel2 (a k : Nat) (h : a < 256) : byteXor (byteXor a k) k = a := by
  show byteXor ((a ^^^ k) % 256) k = a
  rw [byteXor_mod_left]
  show ((a ^^^ k) ^^^ k) % 256 = a
  rw [Nat.xor_cancel_right]
  omega

theorem byteXor_left_inj (p x y : Nat) (hx : x < 256) (hy : y < 256)
    (h : byteXor p x = byteXor p y) : x = y := by
  rw [byteXor_eq, byteXor_eq] at h
  have hxy : x % 256 = y % 256 :=
    calc x % 256 = p % 256 ^^^ (p % 256 ^^^ x % 256) := (Nat.xor_cancel_left _ _).symm
      _ = p % 256 ^^^ (p % 256 ^^^ y % 256) := by rw [h]
      _ = y % 256 := Nat.xor_cancel_left _ _
  omega

theorem xtime_lt (b : Nat) : xtime b < 256 := Nat.mod_lt _ (by norm_num)

theorem xtime_mod (b : Nat) : xtime (b % 256) = xtime b := by
  show ((b % 256 % 256) * 2 ^^^ (if 128 ≤ b % 256 % 256 then 27 else 0)) % 256 =
    ((b % 256) * 2 ^^^ (if 128 ≤ b % 256 then 27 else 0)) % 256
  have hm : b % 256 % 256 = b % 256 := by omega
  rw [hm]

theorem gmul2_mod (b : Nat) : gmul2 (b % 256) = gmul2 b := xtime_mod b

theorem gmul3_mod (b : Nat) : gmul3 (b % 256) = gmul3 b := by
  simp only [gmul3, xtime_mod, byteXor_mod_right]

theorem gmul9_mod (b : Nat) : gmul9 (b % 256) = gmul9 b := by
  simp only [gmul9, xtime_mod, byteXor_mod_right]

theorem gmul11_mod (b : Nat) : gmul11 (b % 256) = gmul11 b := by
  simp only [gmul11, xtime_mod, byteXor_mod_right]

theorem gmul13_mod (b : Nat) : gmul13 (b % 256) = gmul13 b := by
  simp only [gmul13, xtime_mod, byteXor_mod_right]

theorem gmul14_mod (b : Nat) : gmul14 (b % 256) = gmul14 b := by
  simp only [gmul14, xtime_mod, byteXor_mod_right]

theorem mul_two_xor (a b : Nat) : (a ^^^ b) * 2 = a * 2 ^^^ b * 2 := by
  have h : ∀ x : Nat, x * 2 = x <<< 1 := fun x => by rw [Nat.shiftLeft_eq]
  rw [h, h, h]
  apply Nat.eq_of_testBit_eq
  intro i
  simp only [Nat.testBit_shiftLeft, Nat.testBit_xor]
  by_cases hi : 1 ≤ i <;> simp [hi]

theorem testBit7_ge (x : Nat) (hx : x < 256) : x.testBit 7 = decide (128 ≤ x) := by
  rw [Nat.testBit_to_div_mod]
  rcases Nat.lt_or_ge x 128 with h | h
  · have hd : x / 2 ^ 7 = 0 := by omega
    simp [hd]
    omega
  · have hd : x / 2 ^ 7 = 1 := by omega
    simp [hd, h]
    omega

theorem xtime_xor_bounded :
    ∀ x, x < 256 → ∀ y, y < 256 →
      xtime (byteXor x y) = byteXor (xtime x) (xtime y) := by
  intro a ha b hb
  have hu : a ^^^ b < 256 := Nat.xor_lt_two_pow (n := 8) ha hb
  have hmu : (a ^^^ b) % 256 = a ^^^ b := Nat.mod_eq_of_lt hu
  have hma : a % 256 = a := Nat.mod_eq_of_lt ha
  have hmb : b % 256 = b := Nat.mod_eq_of_lt hb
  show ((a ^^^ b) % 256 % 256 * 2 ^^^ (if 128 ≤ (a ^^^ b) % 256 % 256 then 27 else 0)) % 256 =
    byteXor ((a % 256 * 2 ^^^ (if 128 ≤ a % 256 then 27 else 0)) % 256)
      ((b % 256 * 2 ^^^ (if 128 ≤ b % 256 then 27 else 0)) % 256)
  rw [hmu, hmu, hma, hmb, byteXor_mod_left, byteXor_mod_right]
  show ((a ^^^ b) * 2 ^^^ (if 128 ≤ a ^^^ b then 27 else 0)) % 256 =
    ((a * 2 ^^^ (if 128 ≤ a then 27 else 0)) ^^^ (b * 2 ^^^ (if 128 ≤ b then 27 else 0))) % 256
  have h7 : (a ^^^ b).testBit 7 = (a.testBit 7 != b.testBit 7) := Nat.testBit_xor a b 7
  rw [testBit7_ge _ hu, testBit7_ge _ ha, testBit7_ge _ hb] at h7
  have hc : (if 128 ≤ a ^^^ b then 27 else 0) =
      (if 128 ≤ a then 27 else 0) ^^^ (if 128 ≤ b then 27 else 0) := by
    by_cases h1 : 128 ≤ a <;> by_cases h2 : 128 ≤ b <;>
      simp [h1, h2] at h7 <;> simp [h1, h2, h7]
  rw [hc, mul_two_xor]
  congr 1
  rw [Nat.xor_assoc, Nat.xor_assoc]
  congr 1
  rw [← Nat.xor_assoc, ← Nat.xor_assoc, Nat.xor_comm (if 128 ≤ a then 27 else 0) (b * 2)]

theorem xtime_xor (a b : Nat) : xtime (byteXor a b) = byteXor (xtime a) (xtime b) := by
  have h1 : byteXor a b = byteXor (a % 256) (b % 256) := by
    rw [byteXor_mod_left, byteXor_mod_right]
  rw [h1, xtime_xor_bounded _ (by omega) _ (by omega), xtime_mod, xtime_mod]

theorem gmul3_xor (a b : Nat) : gmul3 (byteXor a b) = byteXor (gmul3 a) (gmul3 b) := by
  simp only [gmul3, xtime_xor]
  ac_rfl

theorem gmul9_xor (a b : Nat) : gmul9 (byteXor a b) = byteXor (gmul9 a) (gmul9 b) := by
  simp only [gmul9, xtime_xor]
  ac_rfl

theorem gmul11_xor (a b : Nat) : gmul11 (byteXor a b) = byteXor (gmul11 a) (gmul11 b) := by
  simp only [gmul11, xtime_xor]
  ac_rfl

theorem gmul13_xor (a b : Nat) : gmul13 (byteXor a b) = byteXor (gmul13 a) (gmul13 b) := by
  simp only [gmul13, xtime_xor]
  ac_rfl

theorem gmul14_xor (a b : Nat) : gmul14 (byteXor a b) = byteXor (gmul14 a) (gmul14 b) := by
  simp only [gmul14, xtime_xor]
  ac_rfl

set_option maxRecDepth 10000 in
set_option maxHeartbeats 1000000 in
theorem gmix_id1 :
    ∀ x, x < 256 →
      byteXor (byteXor (byteXor (gmul14 (gmul2 x)) (gmul11 x)) (gmul13 x))
        (gmul9 (gmul3 x)) = x := by decide

set_option maxRecDepth 10000 in
set_option maxHeartbeats 1000000 in
theorem gmix_id2 :
    ∀ y, y < 256 →
      byteXor (byteXor (byteXor (gmul14 (gmul3 y)) (gmul11 (gmul2 y))) (gmul13 y))
        (gmul9 y) = 0 := by decide

set_option maxRecDepth 10000 in
set_option maxHeartbeats 1000000 in
theorem gmix_id3 :
    ∀ z, z < 256 →
      byteXor (byteXor (byteXor (gmul14 z) (gmul11 (gmul3 z))) (gmul13 (gmul2 z)))
        (gmul9 z) = 0 := by decide

set_option maxRecDepth 10000 in
set_option maxHeartbeats 1000000 in
theorem gmix_id4 :
    ∀ w, w < 256 →
      byteXor (byteXor (byteXor (gmul14 w) (gmul11 w)) (gmul13 (gmul3 w)))
        (gmul9 (gmul2 w)) = 0 := by decide

/-! ## AES round operations: validity and inverses -/

set_option maxRecDepth 10000 in
theorem sboxList_lt : ∀ i, i < 256 → sboxList.getD i 0 < 256 := by decide

theorem sbox_lt (b : Nat) : sbox b < 256 :=
  sboxList_lt _ (Nat.mod_lt _ (by norm_num))

set_option maxRecDepth 10000 in
set_option maxHeartbeats 1000000 in
theorem invSbox_sbox : ∀ b, b < 256 → invSbox (sbox b) = b := by decide

theorem subBytesB_valid (s : Block) : blockValid (subBytesB s) :=
  ⟨sbox_lt _, sbox_lt _, sbox_lt _, sbox_lt _, sbox_lt _, sbox_lt _, sbox_lt _, sbox_lt _, sbox_lt _, sbox_lt _, sbox_lt _, sbox_lt _, sbox_lt _, sbox_lt _, sbox_lt _, sbox_lt _⟩

theorem addRoundKeyB_valid (s k : Block) : blockValid (addRoundKeyB s k) :=
  ⟨byteXor_lt _ _, byteXor_lt _ _, byteXor_lt _ _, byteXor_lt _ _, byteXor_lt _ _, byteXor_lt _ _, byteXor_lt _ _, byteXor_lt _ _, byteXor_lt _ _, byteXor_lt _ _, byteXor_lt _ _, byteXor_lt _ _, byteXor_lt _ _, byteXor_lt _ _, byteXor_lt _ _, byteXor_lt _ _⟩

theorem mixColumnsB_valid (s : Block) : blockValid (mixColumnsB s) :=
  ⟨byteXor_lt _ _, byteXor_lt _ _, byteXor_lt _ _, byteXor_lt _ _, byteXor_lt _ _, byteXor_lt _ _, byteXor_lt _ _, byteXor_lt _ _, byteXor_lt _ _, byteXor_lt _ _, byteXor_lt _ _, byteXor_lt _ _, byteXor_lt _ _, byteXor_lt _ _, byteXor_lt _ _, byteXor_lt _ _⟩

theorem shiftRowsB_valid (s : Block) (h : blockValid s) :
    blockValid (shiftRowsB s) := by
  obtain ⟨h0, h1, h2, h3, h4, h5, h6, h7, h8, h9, h10, h11, h12, h13, h14, h15⟩ := h
  exact ⟨h0, h5, h10, h15, h4, h9, h14, h3, h8, h13, h2, h7, h12, h1, h6, h11⟩

theorem invShiftRowsB_shiftRowsB (s : Block) : invShiftRowsB (shiftRowsB s) = s := rfl

theorem invSubBytesB_subBytesB (s : Block) (h : blockValid s) :
    invSubBytesB (subBytesB s) = s := by
  cases s
  obtain ⟨h0, h1, h2, h3, h4, h5, h6, h7, h8, h9, h10, h11, h12, h13, h14, h15⟩ := h
  simp only [subBytesB, invSubBytesB]
  rw [invSbox_sbox _ h0, invSbox_sbox _ h1, invSbox_sbox _ h2, invSbox_sbox _ h3, invSbox_sbox _ h4, invSbox_sbox _ h5, invSbox_sbox _ h6, invSbox_sbox _ h7, invSbox_sbox _ h8, invSbox_sbox _ h9, invSbox_sbox _ h10, invSbox_sbox _ h11, invSbox_sbox _ h12, invSbox_sbox _ h13, invSbox_sbox _ h14, invSbox_sbox _ h15]

theorem addRoundKeyB_addRoundKeyB (s k : Block) (h : blockValid s) :
    addRoundKeyB (addRoundKeyB s k) k = s := by
  cases s
  cases k
  obtain ⟨h0, h1, h2, h3, h4, h5, h6, h7, h8, h9, h10, h11, h12, h13, h14, h15⟩ := h
  simp only [addRoundKeyB]
  rw [byteXor_cancel2 _ _ h0, byteXor_cancel2 _ _ h1, byteXor_cancel2 _ _ h2, byteXor_cancel2 _ _ h3, byteXor_cancel2 _ _ h4, byteXor_cancel2 _ _ h5, byteXor_cancel2 _ _ h6, byteXor_cancel2 _ _ h7, byteXor_cancel2 _ _ h8, byteXor_cancel2 _ _ h9, byteXor_cancel2 _ _ h10, byteXor_cancel2 _ _ h11, byteXor_cancel2 _ _ h12, byteXor_cancel2 _ _ h13, byteXor_cancel2 _ _ h14, byteXor_cancel2 _ _ h15]

theorem invMixRow_mixRow (x y z w : Nat)
    (hx : x < 256) (hy : y < 256) (hz : z < 256) (hw : w < 256) :
    invMixRow (mixRow x y z w) (mixRow y z w x) (mixRow z w x y) (mixRow w x y z) = x := by
  simp only [invMixRow, mixRow, gmul14_xor, gmul11_xor, gmul13_xor, gmul9_xor]
  trans (byteXor (byteXor (byteXor
    (byteXor (byteXor (byteXor (gmul14 (gmul2 x)) (gmul11 x)) (gmul13 x)) (gmul9 (gmul3 x)))
    (byteXor (byteXor (byteXor (gmul14 (gmul3 y)) (gmul11 (gmul2 y))) (gmul13 y)) (gmul9 y)))
    (byteXor (byteXor (byteXor (gmul14 z) (gmul11 (gmul3 z))) (gmul13 (gmul2 z))) (gmul9 z)))
    (byteXor (byteXor (byteXor (gmul14 w) (gmul11 w)) (gmul13 (gmul3 w))) (gmul9 (gmul2 w))))
  · ac_rfl
  · rw [gmix_id1 x hx, gmix_id2 y hy, gmix_id3 z hz, gmix_id4 w hw,
      byteXor_zero _ hx, byteXor_zero _ hx, byteXor_zero _ hx]

theorem invMixColumnsB_mixColumnsB (s : Block) (h : blockValid s) :
    invMixColumnsB (mixColumnsB s) = s := by
  obtain ⟨b0, b1, b2, b3, b4, b5, b6, b7, b8, b9, b10, b11, b12, b13, b14, b15⟩ := s
  obtain ⟨h0, h1, h2, h3, h4, h5, h6, h7, h8, h9, h10, h11, h12, h13, h14, h15⟩ := h
  simp only [mixColumnsB, invMixColumnsB]
  rw [invMixRow_mixRow b0 b1 b2 b3 h0 h1 h2 h3,
    invMixRow_mixRow b1 b2 b3 b0 h1 h2 h3 h0,
    invMixRow_mixRow b2 b3 b0 b1 h2 h3 h0 h1,
    invMixRow_mixRow b3 b0 b1 b2 h3 h0 h1 h2,
    invMixRow_mixRow b4 b5 b6 b7 h4 h5 h6 h7,
    invMixRow_mixRow b5 b6 b7 b4 h5 h6 h7 h4,
    invMixRow_mixRow b6 b7 b4 b5 h6 h7 h4 h5,
    invMixRow_mixRow b7 b4 b5 b6 h7 h4 h5 h6,
    invMixRow_mixRow b8 b9 b10 b11 h8 h9 h10 h11,
    invMixRow_mixRow b9 b10 b11 b8 h9 h10 h11 h8,
    invMixRow_mixRow b10 b11 b8 b9 h10 h11 h8 h9,
    invMixRow_mixRow b11 b8 b9 b10 h11 h8 h9 h10,
    invMixRow_mixRow b12 b13 b14 b15 h12 h13 h14 h15,
    invMixRow_mixRow b13 b14 b15 b12 h13 h14 h15 h12,
    invMixRow_mixRow b14 b15 b12 b13 h14 h15 h12 h13,
    invMixRow_mixRow b15 b12 b13 b14 h15 h12 h13 h14]

theorem aesRounds_valid : ∀ (ks : List Block) (s : Block), blockValid s →
    blockValid (aesRounds ks s) := by
  intro ks
  induction ks with
  | nil => intro s hs; exact hs
  | cons k ks ih =>
      intro s hs
      cases ks with
      | nil => exact addRoundKeyB_valid _ _
      | cons k2 ks2 => exact ih _ (addRoundKeyB_valid _ _)

theorem invAesRounds_aesRounds : ∀ (ks : List Block) (s : Block), blockValid s →
    invAesRounds ks (aesRounds ks s) = s := by
  intro ks
  induction ks with
  | nil => intro s _; rfl
  | cons k ks ih =>
      intro s hs
      cases ks with
      | nil =>
          show invSubBytesB (invShiftRowsB
            (addRoundKeyB (addRoundKeyB (shiftRowsB (subBytesB s)) k) k)) = s
          rw [addRoundKeyB_addRoundKeyB _ _ (shiftRowsB_valid _ (subBytesB_valid s)),
            invShiftRowsB_shiftRowsB, invSubBytesB_subBytesB s hs]
      | cons k2 ks2 =>
          show invSubBytesB (invShiftRowsB (invMixColumnsB (addRoundKeyB
            (invAesRounds (k2 :: ks2) (aesRounds (k2 :: ks2)
              (addRoundKeyB (mixColumnsB (shiftRowsB (subBytesB s))) k))) k))) = s
          rw [ih _ (addRoundKeyB_valid _ _),
            addRoundKeyB_addRoundKeyB _ _ (mixColumnsB_valid _),
            invMixColumnsB_mixColumnsB _ (shiftRowsB_valid _ (subBytesB_valid s)),
            invShiftRowsB_shiftRowsB, invSubBytesB_subBytesB s hs]

theorem aesEncryptB_valid (rks : List Block) (s : Block) (h : blockValid s) :
    blockValid (aesEncryptB rks s) := by
  cases rks with
  | nil => exact h
  | cons k0 rest => exact aesRounds_valid rest _ (addRoundKeyB_valid s k0)

theorem aesDecryptB_aesEncryptB (rks : List Block) (s : Block) (h : blockValid s) :
    aesDecryptB rks (aesEncryptB rks s) = s := by
  cases rks with
  | nil => rfl
  | cons k0 rest =>
      show addRoundKeyB (invAesRounds rest (aesRounds rest (addRoundKeyB s k0))) k0 = s
      rw [invAesRounds_aesRounds rest _ (addRoundKeyB_valid s k0),
        addRoundKeyB_addRoundKeyB s k0 h]

theorem aesEncryptB_inj (rks : List Block) (s t : Block)
    (hs : blockValid s) (ht : blockValid t)
    (h : aesEncryptB rks s = aesEncryptB rks t) : s = t := by
  rw [← aesDecryptB_aesEncryptB rks s hs, ← aesDecryptB_aesEncryptB rks t ht, h]

/-! ## List plumbing for CBC -/

theorem getD_lt_of_validBytes (l : List Nat) (h : validBytes l) (i : Nat) :
    l.getD i 0 < 256 := by
  by_cases hi : i < l.length
  · rw [List.getD_eq_getElem l 0 hi]
    exact h _ (List.getElem_mem hi)
  · rw [List.getD_eq_default]
    · norm_num
    · omega

theorem listToBlock_valid (l : List Nat) (h : validBytes l) :
    blockValid (listToBlock l) :=
  ⟨getD_lt_of_validBytes _ h _, getD_lt_of_validBytes _ h _, getD_lt_of_validBytes _ h _, getD_lt_of_validBytes _ h _, getD_lt_of_validBytes _ h _, getD_lt_of_validBytes _ h _, getD_lt_of_validBytes _ h _, getD_lt_of_validBytes _ h _, getD_lt_of_validBytes _ h _, getD_lt_of_validBytes _ h _, getD_lt_of_validBytes _ h _, getD_lt_of_validBytes _ h _, getD_lt_of_validBytes _ h _, getD_lt_of_validBytes _ h _, getD_lt_of_validBytes _ h _, getD_lt_of_validBytes _ h _⟩

theorem zipXorBytes_valid (a b : List Nat) : validBytes (zipXorBytes a b) := by
  induction a generalizing b with
  | nil => intro x hx; simp [zipXorBytes] at hx
  | cons a0 arest ih =>
      intro x hx
      cases b with
      | nil => simp [zipXorBytes] at hx
      | cons b0 brest =>
          simp only [zipXorBytes, List.zipWith_cons_cons, List.mem_cons] at hx
          rcases hx with rfl | hx
          · exact byteXor_lt _ _
          · exact ih brest x hx

theorem blockToList_valid (s : Block) (h : blockValid s) :
    validBytes (blockToList s) := by
  obtain ⟨h0, h1, h2, h3, h4, h5, h6, h7, h8, h9, h10, h11, h12, h13, h14, h15⟩ := h
  intro b hb
  simp only [blockToList, List.mem_cons, List.not_mem_nil, or_false] at hb
  rcases hb with rfl | rfl | rfl | rfl | rfl | rfl | rfl | rfl | rfl | rfl | rfl | rfl | rfl | rfl | rfl | rfl <;>
    assumption

theorem blockToList_inj (s t : Block) (h : blockToList s = blockToList t) : s = t := by
  cases s
  cases t
  simp only [blockToList, List.cons.injEq, and_true] at h
  simp only [Block.mk.injEq]
  exact h

theorem eq_list16 (l : List Nat) (h : l.length = 16) :
    l = [l.getD 0 0, l.getD 1 0, l.getD 2 0, l.getD 3 0, l.getD 4 0, l.getD 5 0, l.getD 6 0, l.getD 7 0, l.getD 8 0, l.getD 9 0, l.getD 10 0, l.getD 11 0, l.getD 12 0, l.getD 13 0, l.getD 14 0, l.getD 15 0] := by
  rcases l with _ | ⟨a0, _ | ⟨a1, _ | ⟨a2, _ | ⟨a3, _ | ⟨a4, _ | ⟨a5, _ | ⟨a6, _ | ⟨a7, _ | ⟨a8, _ | ⟨a9, _ | ⟨a10, _ | ⟨a11, _ | ⟨a12, _ | ⟨a13, _ | ⟨a14, _ | ⟨a15, _ | ⟨a16, t⟩⟩⟩⟩⟩⟩⟩⟩⟩⟩⟩⟩⟩⟩⟩⟩⟩ <;> simp_all

theorem listToBlock_inj16 (l1 l2 : List Nat) (h1 : l1.length = 16) (h2 : l2.length = 16)
    (h : listToBlock l1 = listToBlock l2) : l1 = l2 := by
  have e1 := eq_list16 l1 h1
  have e2 := eq_list16 l2 h2
  simp only [listToBlock, Block.mk.injEq] at h
  obtain ⟨g0, g1, g2, g3, g4, g5, g6, g7, g8, g9, g10, g11, g12, g13, g14, g15⟩ := h
  rw [e1, e2, g0, g1, g2, g3, g4, g5, g6, g7, g8, g9, g10, g11, g12, g13, g14, g15]

theorem zipXorBytes_left_cancel :
    ∀ (a x y : List Nat), x.length = a.length → y.length = a.length →
      validBytes x → validBytes y → zipXorBytes a x = zipXorBytes a y → x = y := by
  intro a
  induction a with
  | nil =>
      intro x y hx hy _ _ _
      cases x with
      | nil =>
          cases y with
          | nil => rfl
          | cons y0 yr => simp at hy
      | cons x0 xr => simp at hx
  | cons a0 ar ih =>
      intro x y hx hy hvx hvy h
      cases x with
      | nil => simp at hx
      | cons x0 xr =>
          cases y with
          | nil => simp at hy
          | cons y0 yr =>
              simp only [zipXorBytes, List.zipWith_cons_cons, List.cons.injEq] at h
              have hx0 : x0 < 256 := hvx x0 (by simp)
              have hy0 : y0 < 256 := hvy y0 (by simp)
              have hhead := byteXor_left_inj a0 x0 y0 hx0 hy0 h.1
              have htail := ih xr yr (by simpa using hx) (by simpa using hy)
                (fun b hb => hvx b (by simp [hb])) (fun b hb => hvy b (by simp [hb])) h.2
              rw [hhead, htail]

theorem chunks16_cons (l : List Nat) (h : l ≠ []) :
    chunks16 l = l.take 16 :: chunks16 (l.drop 16) := by
  rw [chunks16]
  rw [dif_neg h]

theorem cbcEncryptBlocks_flatten_valid (rks : List Block) :
    ∀ (blocks : List (List Nat)) (prev : List Nat),
      validBytes (cbcEncryptBlocks rks prev blocks).flatten := by
  intro blocks
  induction blocks with
  | nil => intro prev x hx; simp [cbcEncryptBlocks] at hx
  | cons blk rest ih =>
      intro prev x hx
      simp only [cbcEncryptBlocks, List.flatten_cons, List.mem_append] at hx
      rcases hx with hx | hx
      · exact blockToList_valid _
          (aesEncryptB_valid _ _ (listToBlock_valid _ (zipXorBytes_valid _ _))) x hx
      · exact ih _ x hx

/-! ## C9: IV sensitivity of encryption -/

/-- C9: for every plaintext, password, and distinct 16-byte IVs, encrypting
the same plaintext under the same password with the two IVs produces
different output strings; the first ciphertext block is the AES encryption
of the (always non-empty) first padded block XORed with the IV, AES is a
permutation for a fixed key, and the custom Base64 encoding is injective. -/
theorem encryptMessage_iv_sensitivity (P W : String) (iv1 iv2 : List Nat)
    (hl1 : iv1.length = 16) (hl2 : iv2.length = 16)
    (hv1 : validBytes iv1) (hv2 : validBytes iv2)
    (hne : iv1 ≠ iv2) :
    encryptMessage P W iv1 ≠ encryptMessage P W iv2 := by
  intro heq
  have hplen : 16 ≤ (applyPKCS7Padding (utf8Encode P) 16).length := by
    rw [applyPKCS7Padding_length]
    omega
  have hpne : applyPKCS7Padding (utf8Encode P) 16 ≠ [] := by
    intro h0
    rw [h0] at hplen
    simp at hplen
  have htake : ((applyPKCS7Padding (utf8Encode P) 16).take 16).length = 16 := by
    rw [List.length_take]
    omega
  simp only [encryptMessage] at heq
  have hcteq := customBase64Encode_injOn _ _
    (cbcEncryptBlocks_flatten_valid _ _ _) (cbcEncryptBlocks_flatten_valid _ _ _) heq
  rw [chunks16_cons _ hpne] at hcteq
  simp only [cbcEncryptBlocks, List.flatten_cons] at hcteq
  have hbl : ∀ s : Block, (blockToList s).length = 16 := fun s => rfl
  have hfirst := (List.append_inj hcteq (by rw [hbl, hbl])).1
  have haes := blockToList_inj _ _ hfirst
  have hblk := aesEncryptB_inj _ _ _
    (listToBlock_valid _ (zipXorBytes_valid _ _))
    (listToBlock_valid _ (zipXorBytes_valid _ _)) haes
  have hzlen1 : (zipXorBytes ((applyPKCS7Padding (utf8Encode P) 16).take 16) iv1).length = 16 := by
    rw [zipXorBytes, List.length_zipWith, htake, hl1]
    omega
  have hzlen2 : (zipXorBytes ((applyPKCS7Padding (utf8Encode P) 16).take 16) iv2).length = 16 := by
    rw [zipXorBytes, List.length_zipWith, htake, hl2]
    omega
  have hz := listToBlock_inj16 _ _ hzlen1 hzlen2 hblk
  exact hne (zipXorBytes_left_cancel _ iv1 iv2 (by omega) (by omega) hv1 hv2 hz)

/-- Witness for C9 at concrete inputs: the all-zero IV and the IV differing
in its first byte produce different ciphertexts for plaintext `hi` and
password `pw`. -/
theorem encryptMessage_iv_sensitivity_witness :
    (List.replicate 16 (0 : Nat)).length = 16 ∧
    (1 :: List.replicate 15 (0 : Nat)) ≠ List.replicate 16 (0 : Nat) ∧
    encryptMessage "hi" "pw" (List.replicate 16 0) ≠
      encryptMessage "hi" "pw" (1 :: List.replicate 15 0) :=
  ⟨by decide, by decide,
    encryptMessage_iv_sensitivity "hi" "pw" _ _ (by decide) (by decide)
      (by unfold validBytes; decide) (by unfold validBytes; decide) (by decide)⟩
